import Mathlib

/-!
Verification development for the figma-designer table-page extraction core.

The TypeScript sources (protocol layer `config.ts` / `namingProtocol.ts` /
`layoutProtocol.ts` / `intelligence.ts`, `core/parser.ts` and the second,
current `EnhancedTableProcessor` class of
`core/processor/enhancedTableProcessor.ts`) are embedded shallowly:

* JavaScript numbers are modelled as exact fractions `Q` (a numerator /
  denominator pair of integers, denominator kept positive by construction);
  all arithmetic used by the code (add, sub, mul, division by positive
  counts, absolute value, comparisons) is exact, so `Q` idealises IEEE
  doubles the same way `ℚ` would while staying kernel-computable.
* JavaScript strings are Lean `String`s; `toLowerCase` is modelled as
  ASCII lowercasing (all keyword matching in the sources is ASCII or CJK,
  and CJK is unaffected by `toLowerCase`), `String.prototype.includes` /
  `startsWith` / `endsWith` / `trim` are implemented on the character
  lists, and each regular expression that the sources test is translated
  to the equivalent predicate at its use site.
* The visual tree is an inductive `SceneNode`; object identity of JS nodes
  is modelled positionally (indices into the sibling array) where the code
  relies on it, or by structural equality where only a membership test is
  performed.
* `Array.prototype.sort` (stable since ES2019) is modelled by a stable
  insertion sort with the translated comparator.
-/

/-! ## Exact fraction arithmetic (JS numbers) -/

/-- A JS number as an exact fraction. All constructions used below keep
`den` positive, and the comparison operations are only applied to such
values. -/
structure Q where
  num : Int
  den : Int
deriving DecidableEq, Repr

instance (n : Nat) : OfNat Q n := ⟨⟨n, 1⟩⟩

def Q.ofInt (n : Int) : Q := ⟨n, 1⟩

def Q.add (a b : Q) : Q := ⟨a.num * b.den + b.num * a.den, a.den * b.den⟩

def Q.sub (a b : Q) : Q := ⟨a.num * b.den - b.num * a.den, a.den * b.den⟩

def Q.mul (a b : Q) : Q := ⟨a.num * b.num, a.den * b.den⟩

/-- Division; only ever used with a positive divisor in the embedded code. -/
def Q.div (a b : Q) : Q := ⟨a.num * b.den, a.den * b.num⟩

def Q.abs (a : Q) : Q := ⟨a.num.natAbs, a.den⟩

instance : Add Q := ⟨Q.add⟩
instance : Sub Q := ⟨Q.sub⟩
instance : Mul Q := ⟨Q.mul⟩
instance : Div Q := ⟨Q.div⟩

/-- Cross-multiplication order (valid because denominators stay positive). -/
def Q.blt (a b : Q) : Bool := a.num * b.den < b.num * a.den

def Q.ble (a b : Q) : Bool := a.num * b.den ≤ b.num * a.den

instance : LT Q := ⟨fun a b => Q.blt a b = true⟩
instance : LE Q := ⟨fun a b => Q.ble a b = true⟩

instance (a b : Q) : Decidable (a < b) := by
  unfold LT.lt instLTQ; exact inferInstance

instance (a b : Q) : Decidable (a ≤ b) := by
  unfold LE.le instLEQ; exact inferInstance

/-! ## JS string operations -/

/-- ASCII lowercasing of one character (`String.prototype.toLowerCase`
restricted to the alphabets the keyword dictionaries use). -/
def jsCharLower (c : Char) : Char :=
  if 'A' ≤ c ∧ c ≤ 'Z' then Char.ofNat (c.toNat + 32) else c

def jsToLower (s : String) : String :=
  ⟨s.data.map jsCharLower⟩

/-- Decidable list-prefix test. -/
def listStartsWith [DecidableEq α] : List α → List α → Bool
  | [], _ => true
  | _ :: _, [] => false
  | a :: as, b :: bs => a = b && listStartsWith as bs

/-- Embeds `haystack.includes(needle)` on character lists. -/
def listContains [DecidableEq α] (needle : List α) : List α → Bool
  | [] => listStartsWith needle []
  | a :: as => listStartsWith needle (a :: as) || listContains needle as

/-- Embeds `s.includes(pat)` for JS strings. -/
def jsIncludes (s pat : String) : Bool := listContains pat.data s.data

/-- Embeds `s.startsWith(pat)`. -/
def jsStartsWith (s pat : String) : Bool := listStartsWith pat.data s.data

/-- Embeds `s.endsWith(pat)`. -/
def jsEndsWith (s pat : String) : Bool := listStartsWith pat.data.reverse s.data.reverse

def jsIsWhitespace (c : Char) : Bool :=
  c = ' ' || c = '\t' || c = '\n' || c = '\r'

/-- Embeds `s.trim()`. -/
def jsTrim (s : String) : String :=
  ⟨(s.data.dropWhile jsIsWhitespace).reverse.dropWhile jsIsWhitespace |>.reverse⟩

def jsIsDigit (c : Char) : Bool := '0' ≤ c && c ≤ '9'

/-- Test of the regex `/^\d+$/`. -/
def isPureDigits (s : String) : Bool :=
  s.data ≠ [] && s.data.all jsIsDigit

/-- Test of the regex `/^\d+(\.\d+)?$/`. -/
def isNumericLiteral (s : String) : Bool :=
  match s.data.splitOn '.' with
  | [a] => a ≠ [] && a.all jsIsDigit
  | [a, b] => a ≠ [] && a.all jsIsDigit && (b ≠ [] && b.all jsIsDigit)
  | _ => false

/-- Embeds `s` contains (as substring) at least one of the given patterns. -/
def containsAny (s : String) (pats : List String) : Bool :=
  pats.any (fun p => jsIncludes s p)

/-- Embeds `s` starts with at least one of the given patterns. -/
def startsWithAny (s : String) (pats : List String) : Bool :=
  pats.any (fun p => jsStartsWith s p)

/-- Some suffix of `s` (after the given prefix) contains a digit or one of
the given patterns; used to translate regexes of shape
`/^(p).*(\d+|pat)/`. -/
def containsDigitOr (s : String) (pats : List String) : Bool :=
  s.data.any jsIsDigit || containsAny s pats

/-- String with the first `n` characters removed. -/
def strDrop (s : String) (n : Nat) : String := ⟨s.data.drop n⟩

/-! ## The visual tree -/

/-- The node kinds the embedded code distinguishes (`node.type`). -/
inductive NodeType where
  | text
  | frame
  | group
  | component
  | instanceKind
  | rectangle
  | other
deriving DecidableEq, Repr

/-- An opaque component-property / override value of an instance node:
either a plain string or a nested object (a list of key/value fields). -/
inductive PropValue where
  | str (s : String)
  | obj (fields : List (String × PropValue))

mutual

def PropValue.beq : PropValue → PropValue → Bool
  | .str a, .str b => a == b
  | .obj fa, .obj fb => PropValue.beqFields fa fb
  | _, _ => false

def PropValue.beqFields : List (String × PropValue) → List (String × PropValue) → Bool
  | [], [] => true
  | (k₁, v₁) :: r₁, (k₂, v₂) :: r₂ => k₁ == k₂ && PropValue.beq v₁ v₂ && PropValue.beqFields r₁ r₂
  | _, _ => false

end

/-- The scalar data of one node (the read-only capability surface the
processor touches). `hasFills` / `hasStrokes` stand for
`Array.isArray(node.fills) && node.fills.length > 0` (resp. strokes). -/
structure NodeData where
  id : String
  name : String
  ntype : NodeType
  visible : Bool
  x : Q
  y : Q
  width : Q
  height : Q
  characters : String
  fontSize : Q
  hasFills : Bool
  hasStrokes : Bool
  componentProperties : List (String × PropValue)
  overrides : List (String × PropValue)

def NodeData.beq (a b : NodeData) : Bool :=
  a.id == b.id && a.name == b.name && a.ntype == b.ntype && a.visible == b.visible &&
  a.x == b.x && a.y == b.y && a.width == b.width && a.height == b.height &&
  a.characters == b.characters && a.fontSize == b.fontSize &&
  a.hasFills == b.hasFills && a.hasStrokes == b.hasStrokes &&
  PropValue.beqFields a.componentProperties b.componentProperties &&
  PropValue.beqFields a.overrides b.overrides

/-- A node of the input tree. -/
inductive SceneNode where
  | mk (data : NodeData) (children : List SceneNode)

def SceneNode.data : SceneNode → NodeData
  | .mk d _ => d

def SceneNode.children : SceneNode → List SceneNode
  | .mk _ c => c

def SceneNode.id (n : SceneNode) : String := n.data.id
def SceneNode.name (n : SceneNode) : String := n.data.name
def SceneNode.ntype (n : SceneNode) : NodeType := n.data.ntype
def SceneNode.visible (n : SceneNode) : Bool := n.data.visible
def SceneNode.x (n : SceneNode) : Q := n.data.x
def SceneNode.y (n : SceneNode) : Q := n.data.y
def SceneNode.width (n : SceneNode) : Q := n.data.width
def SceneNode.height (n : SceneNode) : Q := n.data.height
def SceneNode.characters (n : SceneNode) : String := n.data.characters
def SceneNode.fontSize (n : SceneNode) : Q := n.data.fontSize

mutual

/-- Structural node equality, standing in for JS object identity in the
few membership tests of the processor (`Array.prototype.includes`). -/
def SceneNode.beq : SceneNode → SceneNode → Bool
  | .mk d₁ c₁, .mk d₂ c₂ => NodeData.beq d₁ d₂ && SceneNode.beqList c₁ c₂

def SceneNode.beqList : List SceneNode → List SceneNode → Bool
  | [], [] => true
  | a :: as, b :: bs => SceneNode.beq a b && SceneNode.beqList as bs
  | _, _ => false

end

mutual

/-- Size measure used for termination of the tree recursions. -/
def SceneNode.nsize : SceneNode → Nat
  | .mk _ c => 1 + SceneNode.nsizeList c

def SceneNode.nsizeList : List SceneNode → Nat
  | [] => 0
  | a :: as => SceneNode.nsize a + SceneNode.nsizeList as

end

theorem SceneNode.nsize_pos (n : SceneNode) : 0 < n.nsize := by
  cases n with
  | mk d c => simp only [SceneNode.nsize]; omega

theorem SceneNode.nsizeList_of_mem {n : SceneNode} {l : List SceneNode}
    (h : n ∈ l) : n.nsize ≤ SceneNode.nsizeList l := by
  induction l with
  | nil => cases h
  | cons a as ih =>
    cases h with
    | head => simp only [SceneNode.nsizeList]; omega
    | tail _ hm =>
      have := ih hm
      simp only [SceneNode.nsizeList]
      omega

theorem SceneNode.nsize_lt_of_mem_children {c n : SceneNode}
    (h : c ∈ n.children) : c.nsize < n.nsize := by
  cases n with
  | mk d cs =>
    have := SceneNode.nsizeList_of_mem (l := cs) h
    simp only [SceneNode.nsize]
    omega

/-! ## Stable sort (JS `Array.prototype.sort`) -/

/-- Stable insertion of `x` into `l`: `x` goes before the first element
`y` with `le x y`. For the total preorders produced by the comparators
below this computes the same list as any stable sort. -/
def stableInsert (le : α → α → Bool) (x : α) : List α → List α
  | [] => [x]
  | y :: ys => if le x y then x :: y :: ys else y :: stableInsert le x ys

/-- Stable sort modelling `Array.prototype.sort(cmp)` with
`le a b := cmp(a,b) ≤ 0`. -/
def stableSort (le : α → α → Bool) : List α → List α
  | [] => []
  | x :: xs => stableInsert le x (stableSort le xs)

theorem mem_stableInsert {le : α → α → Bool} {x y : α} {l : List α} :
    y ∈ stableInsert le x l ↔ y = x ∨ y ∈ l := by
  induction l with
  | nil => simp [stableInsert]
  | cons a as ih =>
    by_cases h : le x a = true
    · simp [stableInsert, h]
    · simp only [stableInsert, if_neg h, List.mem_cons, ih]
      tauto

theorem mem_stableSort {le : α → α → Bool} {y : α} {l : List α} :
    y ∈ stableSort le l ↔ y ∈ l := by
  induction l with
  | nil => simp [stableSort]
  | cons a as ih =>
    simp [stableSort, mem_stableInsert, ih]

/-! ## `protocol/config.ts` — semantic dictionary (semantic-driven variant) -/

/-- Logical roles (`TableRole`). -/
inductive TableRole where
  | TableContainer
  | HeaderArea
  | BodyArea
  | SearchArea
  | ActionGroup
  | DataGrid
  | PaginationBar
  | OperationGroup
deriving DecidableEq, Repr

def searchMatchers : List String :=
  ["search", "filter", "query", "find", "搜索", "查询", "筛选", "过滤"]

def gridMatchers : List String :=
  ["table", "grid", "list", "data", "columns", "rows", "数据表", "列表", "网格", "列"]

def gridExcludes : List String := ["container", "wrapper"]

def toolbarMatchers : List String :=
  ["toolbar", "tools", "buttonGroup", "buttons", "工具栏", "按钮组", "操作栏"]

def toolbarIntentPrimary : List String :=
  ["add", "create", "new", "insert", "新增", "添加", "创建"]

def toolbarIntentBatch : List String :=
  ["export", "import", "download", "导出", "导入", "下载"]

def toolbarIntentSystem : List String :=
  ["refresh", "reload", "reset", "刷新", "重置"]

def operationsMatchers : List String :=
  ["操作", "action", "operation", "opt", "manage", "管理"]

def operationsIntentEdit : List String :=
  ["edit", "modify", "update", "审核", "通过", "批准", "approve", "pass", "编辑", "修改", "更新"]

def operationsIntentDanger : List String :=
  ["delete", "remove", "destroy", "cancel", "reject", "void", "删除", "移除", "作废", "驳回", "拒绝", "禁用", "disable"]

def operationsIntentView : List String :=
  ["view", "detail", "show", "info", "查看", "详情", "显示"]

def paginationMatchers : List String :=
  ["pagination", "pager", "footer", "page-control", "分页", "翻页", "页码"]

def headerMatchers : List String :=
  ["header", "title", "caption", "top-bar", "heading", "标题栏", "标题"]

def bodyMatchers : List String :=
  ["body", "content", "main", "wrapper", "container", "主体", "内容区"]

/-- One entry of the `SemanticDictionary`. -/
structure SemEntry where
  matchers : List String
  excludes : List String
  role : TableRole

/-- The `SemanticDictionary` in its fixed object-literal insertion order
(`Object.entries` iterates string keys in that order). -/
def semanticEntries : List SemEntry :=
  [ ⟨searchMatchers, [], .SearchArea⟩,
    ⟨gridMatchers, gridExcludes, .DataGrid⟩,
    ⟨toolbarMatchers, [], .ActionGroup⟩,
    ⟨operationsMatchers, [], .OperationGroup⟩,
    ⟨paginationMatchers, [], .PaginationBar⟩,
    ⟨headerMatchers, [], .HeaderArea⟩,
    ⟨bodyMatchers, [], .BodyArea⟩ ]

/-- Embeds `RecognitionConfig.minConfidence`. -/
def minConfidence : Q := ⟨3, 5⟩

/-! ## `core/parser.ts` -/

/-- Embeds `isContainer`: FRAME / GROUP / COMPONENT / INSTANCE. -/
def isContainer (n : SceneNode) : Bool :=
  n.ntype = .frame || n.ntype = .group || n.ntype = .component || n.ntype = .instanceKind

/-- Embeds `findChildren` (`'children' in node` holds exactly for containers among
the modelled node kinds). -/
def findChildren (n : SceneNode) (pred : SceneNode → Bool) : List SceneNode :=
  if isContainer n then n.children.filter pred else []

/-- Embeds `findOneChild` (`find(...) || null`). -/
def findOneChild (n : SceneNode) (pred : SceneNode → Bool) : Option SceneNode :=
  if isContainer n then n.children.find? pred else none

/-- The comparator of `sortNodesByPosition`. -/
def cmpPos (a b : SceneNode) : Q :=
  if 10 < Q.abs (a.y - b.y) then a.y - b.y else a.x - b.x

def posLe (a b : SceneNode) : Bool := Q.ble (cmpPos a b) 0

/-- Embeds `sortNodesByPosition`: stable sort by Y (10-unit row tolerance) then X. -/
def sortNodesByPosition (nodes : List SceneNode) : List SceneNode :=
  stableSort posLe nodes

theorem mem_sortNodesByPosition {n : SceneNode} {l : List SceneNode} :
    n ∈ sortNodesByPosition l ↔ n ∈ l := mem_stableSort

/-! ## `protocol/namingProtocol.ts` -/

/-- Embeds `matchesPattern`: case-insensitive substring containment. -/
def matchesPattern (name : String) (patterns : List String) : Bool :=
  if name = "" then false
  else patterns.any (fun p => jsIncludes (jsToLower name) (jsToLower p))

def isSearchArea (name : String) : Bool := matchesPattern name searchMatchers

def isTableSearchArea (name : String) : Bool := isSearchArea name

def isTableArea (name : String) : Bool := matchesPattern name gridMatchers

def isTableRow (name : String) : Bool :=
  matchesPattern name ["row", "tr", "record", "行", "记录"]

def isTableColumn (name : String) : Bool :=
  matchesPattern name ["cell", "td", "col", "column", "列", "单元格"]

def isInputComponent (name : String) : Bool :=
  matchesPattern name ["input", "text", "field", "输入框"]

def isSelectComponent (name : String) : Bool :=
  matchesPattern name ["select", "dropdown", "picker", "选择器", "下拉"]

def isDateComponent (name : String) : Bool :=
  matchesPattern name ["date", "time", "calendar", "日期", "时间"]

def isButtonComponent (name : String) : Bool :=
  matchesPattern name ["button", "btn", "按钮", "页面切换"]

def isContainerComponent (name : String) : Bool :=
  matchesPattern name ["container", "wrapper", "box", "area", "容器", "区域"]

def isHeaderComponent (name : String) : Bool :=
  matchesPattern name ["header", "th", "表头"]

def isContentArea (name : String) : Bool :=
  matchesPattern name ["content", "body", "main", "内容", "主体"]

def isTitleComponent (name : String) : Bool := matchesPattern name headerMatchers

def isActionComponent (name : String) : Bool := matchesPattern name operationsMatchers

def isToolbarComponent (name : String) : Bool := matchesPattern name toolbarMatchers

def isPaginationComponent (name : String) : Bool := matchesPattern name paginationMatchers

/-- Embeds `isOperationButton`: all `operations.intent` keywords, in field order. -/
def isOperationButton (name : String) : Bool :=
  matchesPattern name (operationsIntentEdit ++ operationsIntentDanger ++ operationsIntentView)

/-- Embeds `getBusinessType`: fixed most-specific-first priority chain. -/
def getBusinessType (name : String) : String :=
  if isTableSearchArea name then "table-search"
  else if isSearchArea name then "search"
  else if isTableArea name then "table"
  else if isTableRow name then "table-row"
  else if isTableColumn name then "table-column"
  else if isInputComponent name then "input"
  else if isSelectComponent name then "select"
  else if isDateComponent name then "date"
  else if isButtonComponent name then "button"
  else if isHeaderComponent name then "header"
  else if isTitleComponent name then "title"
  else if isActionComponent name then "action"
  else if isToolbarComponent name then "toolbar"
  else if isPaginationComponent name then "pagination"
  else if isOperationButton name then "operation"
  else if isContentArea name then "content"
  else if isContainerComponent name then "container"
  else "unknown"

/-- Split a character list on one separator, keeping empty segments
(JS `String.prototype.split` with a one-character separator). -/
def splitOnChar (sep : Char) : List Char → List (List Char)
  | [] => [[]]
  | c :: cs =>
    let rest := splitOnChar sep cs
    if c = sep then [] :: rest
    else match rest with
      | [] => [[c]]
      | r :: rs => (c :: r) :: rs

def jsSplit (s : String) (sep : Char) : List String :=
  (splitOnChar sep s.data).map (fun l => ⟨l⟩)

/-- Result of `parseCompoundName` (`prefix` / `type` / `suffix` / `parts`;
the first two field names are Lean keywords, hence the `Part` suffix). -/
structure CompoundName where
  prefixPart : String
  typePart : String
  suffixPart : String
  parts : List String
deriving DecidableEq, Repr

/-- Left-to-right scan for the first part whose business type is not
`"unknown"`. -/
def findTypeIdx : List String → Nat → Option (Nat × String)
  | [], _ => none
  | p :: ps, i =>
    let bt := getBusinessType p
    if bt ≠ "unknown" then some (i, bt) else findTypeIdx ps (i + 1)

/-- Embeds `parseCompoundName`. -/
def parseCompoundName (name : String) : CompoundName :=
  if name = "" then ⟨"", "", "", []⟩
  else
    let parts0 := ["-", "_", " "].foldl
      (fun parts sep => parts.flatMap (fun p => jsSplit p (sep.get 0))) [name]
    let parts := parts0.filter (fun p => (jsTrim p).length > 0)
    if parts = [] then ⟨"", "", "", []⟩
    else
      match findTypeIdx parts 0 with
      | none => ⟨"", "", "", parts⟩
      | some (i, t) =>
        let pre := if i > 0 then String.intercalate ("-") (parts.take i) else ""
        let suf := if i < parts.length - 1 then String.intercalate ("-") (parts.drop (i + 1)) else ""
        ⟨pre, t, suf, parts⟩

/-- Result of `validateName`. -/
structure ValidationResult where
  isValid : Bool
  issues : List String
  suggestions : List String
deriving DecidableEq, Repr

/-- Embeds `validateName`. -/
def validateName (name : String) : ValidationResult :=
  if name = "" || (jsTrim name).length = 0 then
    ⟨false, ["名称为空"], ["使用描述性名称，如 \"search-input\""]⟩
  else
    let parsed := parseCompoundName name
    let issues := if parsed.typePart = "unknown" then ["未识别的组件类型"] else []
    let suggestions₁ := if parsed.typePart = "unknown" then
      ["在名称中包含组件类型，如 \"input\"、\"button\"、\"table\""] else []
    let suggestions₂ := if parsed.parts.length = 1 then
      ["考虑使用复合名称提高可读性，如 \"user-search-input\""] else []
    ⟨issues.length = 0, issues, suggestions₁ ++ suggestions₂⟩

/-! ## `protocol/layoutProtocol.ts` (hard-coded thresholds: alignment 5,
row height 10, label-input distance 20, label-input vertical distance 10) -/

/-- Embeds `isHorizontallyAligned`: vertical centers within (strictly less than)
the 5-unit alignment threshold. -/
def isHorizontallyAligned (n1 n2 : SceneNode) : Bool :=
  Q.blt (Q.abs ((n1.y + n1.height / 2) - (n2.y + n2.height / 2))) 5

/-- Embeds `isVerticallyAligned`. -/
def isVerticallyAligned (n1 n2 : SceneNode) : Bool :=
  Q.blt (Q.abs ((n1.x + n1.width / 2) - (n2.x + n2.width / 2))) 5

/-- Embeds `isSameRow`: top-edge difference strictly below 10. -/
def isSameRow (n1 n2 : SceneNode) : Bool :=
  Q.blt (Q.abs (n1.y - n2.y)) 10

/-- Embeds `isSameColumn`: left-edge difference strictly below 5. -/
def isSameColumn (n1 n2 : SceneNode) : Bool :=
  Q.blt (Q.abs (n1.x - n2.x)) 5

/-- Embeds `getHorizontalDistance`: gap between the boxes, 0 when they overlap. -/
def getHorizontalDistance (n1 n2 : SceneNode) : Q :=
  let right1 := n1.x + n1.width
  let left2 := n2.x
  let left1 := n1.x
  let right2 := n2.x + n2.width
  if Q.ble right1 left2 then left2 - right1
  else if Q.ble right2 left1 then left1 - right2
  else 0

/-- Embeds `getVerticalDistance`. -/
def getVerticalDistance (n1 n2 : SceneNode) : Q :=
  let bottom1 := n1.y + n1.height
  let top2 := n2.y
  let top1 := n1.y
  let bottom2 := n2.y + n2.height
  if Q.ble bottom1 top2 then top2 - bottom1
  else if Q.ble bottom2 top1 then top1 - bottom2
  else 0

/-- Embeds `isLabelInputPair`: text label, horizontal gap ≤ 20, vertical centers
aligned (strictly within 5), vertical gap ≤ 10. -/
def isLabelInputPair (label input : SceneNode) : Bool :=
  if label.ntype ≠ NodeType.text then false
  else
    let horizontalDistance := getHorizontalDistance label input
    let isHorizontalValid := Q.ble horizontalDistance 20
    let isAligned := isHorizontallyAligned label input
    let verticalDistance := Q.abs (getVerticalDistance label input)
    let isVerticalValid := Q.ble verticalDistance 10
    isHorizontalValid && isAligned && isVerticalValid

/-- Embeds `canFormButtonGroup`: size similarity (width Δ<20, height Δ<10) and
same row or same column. -/
def canFormButtonGroup (n1 n2 : SceneNode) : Bool :=
  let sizeSimilarity := Q.blt (Q.abs (n1.width - n2.width)) 20 &&
                        Q.blt (Q.abs (n1.height - n2.height)) 10
  sizeSimilarity && (isSameRow n1 n2 || isSameColumn n1 n2)

/-- Loop of `identifyButtonGroups`; `processed` is the set of already
consumed positions (JS `Set` of object references, modelled by indices). -/
def identifyButtonGroupsGo (all : List (Nat × SceneNode)) :
    List (Nat × SceneNode) → List Nat → List (List SceneNode)
  | [], _ => []
  | (i, node) :: rest, processed =>
    if processed.contains i then identifyButtonGroupsGo all rest processed
    else
      let group := all.filter (fun p => !processed.contains p.1 && canFormButtonGroup node p.2)
      if 2 ≤ group.length then
        group.map (·.2) :: identifyButtonGroupsGo all rest (processed ++ group.map (·.1))
      else identifyButtonGroupsGo all rest processed

/-- Embeds `identifyButtonGroups`: greedy partition into groups of pairwise
compatible nodes; singletons are dropped. -/
def identifyButtonGroups (nodes : List SceneNode) : List (List SceneNode) :=
  let all := nodes.enum
  identifyButtonGroupsGo all all []

def rowHeadY (r : List SceneNode) : Q :=
  match r.head? with
  | some n => n.y
  | none => 0

/-- Loop of `groupByRows`. -/
def groupByRowsGo (all : List (Nat × SceneNode)) :
    List (Nat × SceneNode) → List Nat → List (List SceneNode)
  | [], _ => []
  | (i, node) :: rest, processed =>
    if processed.contains i then groupByRowsGo all rest processed
    else
      let row := all.filter (fun p => !processed.contains p.1 && isSameRow node p.2)
      let sortedRow := stableSort (fun a b => Q.ble (a.x - b.x) 0) (row.map (·.2))
      sortedRow :: groupByRowsGo all rest (processed ++ row.map (·.1))

/-- Embeds `groupByRows`: seed a row from the next unprocessed node, collect all
`isSameRow` matches, sort each row by x, finally sort rows by the y of
their first member. -/
def groupByRows (nodes : List SceneNode) : List (List SceneNode) :=
  let all := nodes.enum
  let rows := groupByRowsGo all all []
  stableSort (fun a b => Q.ble (rowHeadY a - rowHeadY b) 0) rows

def qsum (l : List Q) : Q := l.foldl (· + ·) 0

/-- Embeds `checkColumnAlignment`: per column, every x within (strictly less
than) 5 of the column average; columns with fewer than 2 present cells are
skipped. -/
def checkColumnAlignment (rows : List (List SceneNode)) : Bool :=
  if rows.length < 2 then true
  else
    let columnCount := (rows.headD []).length
    (List.range columnCount).all (fun col =>
      let columnNodes := rows.filterMap (fun row => row.get? col)
      if columnNodes.length < 2 then true
      else
        let xCoords := columnNodes.map (·.x)
        let avgX := qsum xCoords / Q.ofInt xCoords.length
        xCoords.all (fun x => Q.blt (Q.abs (x - avgX)) 5))

/-- Embeds `isTableStructure`: at least 3 nodes, at least 2 rows, identical row
cardinality, per-column x alignment. -/
def isTableStructure (nodes : List SceneNode) : Bool :=
  if nodes.length < 3 then false
  else
    let rows := groupByRows nodes
    if rows.length < 2 then false
    else
      let firstRowCount := (rows.headD []).length
      let consistentColumns := rows.all (fun row => row.length = firstRowCount)
      if !consistentColumns then false
      else
        let columnsAligned := checkColumnAlignment rows
        consistentColumns && columnsAligned

/-! ## `protocol/intelligence.ts` — IntelligenceEngine -/

/-- Embeds the `{ role, confidence }` record as returned by `resolveNodeRole`. -/
structure RoleResolution where
  role : Option TableRole
  confidence : Q
deriving DecidableEq, Repr

/-- Embeds `resolveNodeRole`: iterate the semantic dictionary in order, skip an
entry when an exclude keyword occurs in the lowercased name, score a
matcher hit with flat confidence 0.8, keep the strictly best score, and
drop below the 0.6 threshold to `{ role: null, confidence: 0 }`. -/
def resolveNodeRole (node : SceneNode) : RoleResolution :=
  let name := jsToLower node.name
  let bestMatch := semanticEntries.foldl (fun bestMatch entry =>
    if entry.excludes.any (fun ex => jsIncludes name (jsToLower ex)) then bestMatch
    else
      let hasMatch := entry.matchers.any (fun m => jsIncludes name (jsToLower m))
      if hasMatch then
        let confidence : Q := ⟨4, 5⟩
        if Q.blt bestMatch.confidence confidence then ⟨some entry.role, confidence⟩
        else bestMatch
      else bestMatch) ⟨none, 0⟩
  if Q.blt bestMatch.confidence minConfidence then ⟨none, 0⟩ else bestMatch

/-- Embeds `(text || nodeName || '').toLowerCase()`. -/
def contentOf (text : String) (nodeName : Option String) : String :=
  jsToLower (if text ≠ "" then text else (nodeName.getD ("")))

/-- Embeds `inferToolbarAction`: primary → add, batch → import (when the matched
batch keyword is literally `import`) / export, system → refresh, else
custom. -/
def inferToolbarAction (text : String) (nodeName : Option String) : String :=
  let content := contentOf text nodeName
  if toolbarIntentPrimary.any (fun k => jsIncludes content k) then "add"
  else if toolbarIntentBatch.any (fun k => jsIncludes content k) then
    if toolbarIntentBatch.any (fun k => k = "import" && jsIncludes content ("import")) then "import"
    else "export"
  else if toolbarIntentSystem.any (fun k => jsIncludes content k) then "refresh"
  else "custom"

/-- Embeds `inferRowAction`: danger → delete, then edit, then view, else custom. -/
def inferRowAction (text : String) (nodeName : Option String) : String :=
  let content := contentOf text nodeName
  if operationsIntentDanger.any (fun k => jsIncludes content k) then "delete"
  else if operationsIntentEdit.any (fun k => jsIncludes content k) then "edit"
  else if operationsIntentView.any (fun k => jsIncludes content k) then "view"
  else "custom"

/-- Test of the `ExclusionPatterns` array (each regex translated in
order; `.` is modelled as matching any character). -/
def exclusionPatternsTest (content : String) : Bool :=
  startsWithAny content ["状态", "待审核", "审核中", "已审核", "全部", "共", "第", "page"] ||
  ((jsStartsWith content ("共") && containsDigitOr (strDrop content 1) ["条", "rows"]) ||
   (jsStartsWith content ("total") && containsDigitOr (strDrop content 5) ["条", "rows"])) ||
  ((jsStartsWith content ("第") && containsDigitOr (strDrop content 1) ["页"]) ||
   (jsStartsWith content ("page") && containsDigitOr (strDrop content 4) ["页"])) ||
  isNumericLiteral content ||
  decide (25 ≤ content.data.length)

/-- Embeds `shouldExclude`: bare operations column keyword, or any exclusion
pattern. -/
def shouldExclude (text : String) : Bool :=
  let content := jsToLower (jsTrim text)
  operationsMatchers.any (fun m => jsToLower m = content) ||
  exclusionPatternsTest content

/-- The keyword pool of `hasActionKeyword` (toolbar + operations matchers,
then all intent vocabularies in field order). Keywords are *not*
lowercased by the source at this call site. -/
def allActionKeywords : List String :=
  toolbarMatchers ++ operationsMatchers ++
  toolbarIntentPrimary ++ toolbarIntentBatch ++ toolbarIntentSystem ++
  operationsIntentEdit ++ operationsIntentDanger ++ operationsIntentView

/-- Embeds `hasActionKeyword`. -/
def hasActionKeyword (text : String) : Bool :=
  let content := jsToLower (jsTrim text)
  allActionKeywords.any (fun keyword => jsIncludes content keyword)

/-! ## `types/model.ts` — output model

Role tags and enum-like unions are modelled as strings, exactly as in the
TS literals. Optional fields the processor never writes (icon, sortable,
validation, …) are omitted. -/

structure SearchField where
  label : String
  key : Option String
  type : String
  placeholder : Option String
deriving DecidableEq, Repr

structure TableColumn where
  title : String
  dataIndex : Option String
  width : Option Q
  align : Option String
  fixed : Option String
  type : Option String
deriving DecidableEq, Repr

structure ConfirmSpec where
  title : String
  content : Option String
deriving DecidableEq, Repr

structure ActionButton where
  type : String
  label : String
  key : Option String
  danger : Option Bool
  confirm : Option ConfirmSpec
deriving DecidableEq, Repr

structure ToolbarButton where
  type : String
  label : String
  key : Option String
deriving DecidableEq, Repr

structure ButtonGroup where
  type : String
  buttons : List ToolbarButton
  layout : Option String
  align : Option String
deriving DecidableEq, Repr

structure HeaderAreaModel where
  role : String
  title : String
  level : Option Nat
  extra : Option String
deriving DecidableEq, Repr

structure SearchAreaModel where
  role : String
  fields : List SearchField
  buttons : Option ButtonGroup
deriving DecidableEq, Repr

structure ActionGroupModel where
  role : String
  left : Option ButtonGroup
  right : Option ButtonGroup
deriving DecidableEq, Repr

structure RowSelection where
  type : String
  showSelectAll : Option Bool
deriving DecidableEq, Repr

structure ActionColumnModel where
  column : TableColumn
  buttons : List ActionButton
deriving DecidableEq, Repr

structure DataGridModel where
  role : String
  columns : List TableColumn
  rowSelection : Option RowSelection
  actionColumn : Option ActionColumnModel
deriving DecidableEq, Repr

structure PaginationBarModel where
  role : String
  enabled : Bool
  pageSize : Option Q
  showSizeChanger : Option Bool
  showQuickJumper : Option Bool
deriving DecidableEq, Repr

structure BodyAreaModel where
  role : String
  search : Option SearchAreaModel
  toolbar : Option ActionGroupModel
  table : DataGridModel
  pagination : Option PaginationBarModel
deriving DecidableEq, Repr

structure TablePageModel where
  role : String
  type : String
  header : Option HeaderAreaModel
  body : BodyAreaModel
deriving DecidableEq, Repr

/-! ## `core/processor/enhancedTableProcessor.ts` (current class) -/

/-- Embeds `isExplicitActionColumn` on a plain name: quick match against the
`operations` matchers. -/
def isExplicitActionColumnName (name : String) : Bool :=
  operationsMatchers.any (fun matcher => jsIncludes (jsToLower name) (jsToLower matcher))

/-- Embeds `isExplicitActionColumn` on a node: full role resolution (OperationGroup
with confidence above 0.6), falling back to the name match. -/
def isExplicitActionColumnNode (node : SceneNode) : Bool :=
  let analysis := resolveNodeRole node
  if analysis.role = some TableRole.OperationGroup && Q.blt ⟨3, 5⟩ analysis.confidence then true
  else isExplicitActionColumnName node.name

/-- The processor's own `isInputComponent` (name hints, then visual check
on rectangle/frame/instance nodes with fill or stroke and plausible input
dimensions). -/
def isInputComponentNode (node : SceneNode) : Bool :=
  if isInputComponent node.name || isSelectComponent node.name || isDateComponent node.name then
    true
  else if node.ntype = NodeType.rectangle || node.ntype = NodeType.frame ||
          node.ntype = NodeType.instanceKind then
    if node.data.hasFills || node.data.hasStrokes then
      Q.blt 60 node.width && Q.blt 20 node.height && Q.blt node.height 60
    else false
  else false

/-- Embeds `determineFieldType`: label keyword hints override node-kind hints;
INSTANCE and everything else default to `input`. -/
def determineFieldType (node : SceneNode) (label : String) : String :=
  if label ≠ "" && containsAny label ["日期", "时间", "Date", "Time", "年份", "月份"] then "date"
  else if label ≠ "" && containsAny label ["下拉", "选择", "Select", "Choose", "类型", "状态"] then "select"
  else if isSelectComponent node.name then "select"
  else if isDateComponent node.name then "date"
  else if isInputComponent node.name then "input"
  else if node.ntype = NodeType.instanceKind then "input"
  else "input"

def isFieldKeyChar (c : Char) : Bool :=
  ('a' ≤ c && c ≤ 'z') || ('A' ≤ c && c ≤ 'Z') || ('0' ≤ c && c ≤ '9') ||
  (Char.ofNat 0x4e00 ≤ c && c ≤ Char.ofNat 0x9fa5)

/-- Collapse runs of `_` to a single `_` (regex `/_{2,}/g` → `_`). -/
def collapseUnderscores (afterUnderscore : Bool) : List Char → List Char
  | [] => []
  | c :: cs =>
    if c = '_' then
      if afterUnderscore then collapseUnderscores true cs
      else '_' :: collapseUnderscores true cs
    else c :: collapseUnderscores false cs

/-- Remove one leading and one trailing `_` (regex `/^_|_$/g` → `""`). -/
def stripEdgeUnderscores (l : List Char) : List Char :=
  let l₁ := match l with
    | '_' :: rest => rest
    | other => other
  match l₁.reverse with
  | '_' :: rest => rest.reverse
  | _ => l₁

/-- Embeds `generateFieldKey`: lowercase, replace every character outside
`[a-zA-Z0-9一-龥]` by `_`, collapse `_` runs, strip edge `_`. -/
def generateFieldKey (label : String) : String :=
  let lowered := (jsToLower label).data
  let replaced := lowered.map (fun c => if isFieldKeyChar c then c else '_')
  ⟨stripEdgeUnderscores (collapseUnderscores false replaced)⟩

/-- Embeds `isPlaceholderLike`. -/
def isPlaceholderLike (text : String) : Bool :=
  startsWithAny text ["请输入", "请选择", "输入", "选择"] ||
  containsAny (jsToLower text) ["placeholder", "hint"]

/-- Embeds `extractPlaceholder`: first visible text child of a container whose
trimmed content looks like a placeholder. -/
def extractPlaceholder (node : SceneNode) : Option String :=
  if isContainer node then
    match findOneChild node (fun n => n.ntype = NodeType.text && n.visible) with
    | some textChild =>
      if textChild.characters ≠ "" then
        let text := jsTrim textChild.characters
        if isPlaceholderLike text then some text else none
      else none
    | none => none
  else none

/-- Pairwise scan of the sorted children inside
`extractSearchFieldsRecursive`: on a label/input match the loop consumes
both nodes (`i++`), and labels from the expand/collapse deny list consume
both without emitting a field. -/
def scanLabelInputPairs : List SceneNode → List SearchField
  | current :: next :: rest =>
    if isLabelInputPair current next then
      let labelText := current.characters
      if containsAny labelText ["收起", "展开", "高级搜索", "更多", "Expand", "Collapse"] then
        scanLabelInputPairs rest
      else
        { label := labelText,
          type := determineFieldType next labelText,
          key := some (generateFieldKey labelText),
          placeholder := extractPlaceholder next } :: scanLabelInputPairs rest
    else scanLabelInputPairs (next :: rest)
  | _ => []

theorem nsize_lt_of_mem_sorted_findChildren {c n : SceneNode} {p : SceneNode → Bool}
    (h : c ∈ sortNodesByPosition (findChildren n p)) : c.nsize < n.nsize := by
  have h₁ : c ∈ findChildren n p := mem_sortNodesByPosition.mp h
  have h₂ : c ∈ n.children := by
    unfold findChildren at h₁
    by_cases hc : isContainer n = true
    · rw [if_pos hc] at h₁
      exact (List.mem_filter.mp h₁).1
    · rw [if_neg hc] at h₁
      cases h₁
  exact SceneNode.nsize_lt_of_mem_children h₂

/-- Embeds `extractSearchFieldsRecursive`: scan the visually sorted visible
children for adjacent label/input pairs, then recurse (max depth 3) into
container children that are not themselves input-like. The structural
fuel mirrors the source's depth cap (`depth > 3` cuts off, so 4 levels
suffice and the fuel never runs out first). -/
def extractSearchFieldsF : Nat → SceneNode → Nat → List SearchField
  | 0, _, _ => []
  | fuel + 1, node, depth =>
    if depth > 3 then []
    else if !isContainer node then []
    else
      let children := sortNodesByPosition (findChildren node (fun n => n.visible))
      let pairFields := scanLabelInputPairs children
      let rest := (children.filter
          (fun c => isContainer c && !isInputComponentNode c)).flatMap
        (fun c => extractSearchFieldsF fuel c (depth + 1))
      pairFields ++ rest

def extractSearchFieldsRecursive (node : SceneNode) (depth : Nat) : List SearchField :=
  extractSearchFieldsF (4 - depth) node depth


/-- Embeds `inferTitleLevel`: font-size buckets (`Number(fontSize) || 16`
defaults a zero/absent size to 16). -/
def inferTitleLevel (textNode : SceneNode) : Nat :=
  let fontSize := if textNode.fontSize.num = 0 then (16 : Q) else textNode.fontSize
  if Q.ble 24 fontSize then 1
  else if Q.ble 20 fontSize then 2
  else if Q.ble 18 fontSize then 3
  else if Q.ble 16 fontSize then 4
  else if Q.ble 14 fontSize then 5
  else 6

/-- A queue entry of the role BFS: the node together with its parent and
its index in the parent's children array (`none` for the root). This
carries exactly the information JS recovers later through the `parent`
pointer and object identity. -/
abbrev BfsEntry := SceneNode × Option (SceneNode × Nat)

def bfsChildEntries (node : SceneNode) : List BfsEntry :=
  node.children.enum.map (fun p => (p.2, some (node, p.1)))

theorem SceneNode.nsizeList_append (l₁ l₂ : List SceneNode) :
    SceneNode.nsizeList (l₁ ++ l₂) = SceneNode.nsizeList l₁ + SceneNode.nsizeList l₂ := by
  induction l₁ with
  | nil => simp [SceneNode.nsizeList]
  | cons a as ih =>
    have h : (a :: as) ++ l₂ = a :: (as ++ l₂) := rfl
    rw [h]
    simp only [SceneNode.nsizeList]
    rw [ih]
    omega

theorem map_fst_bfsChildEntries (node : SceneNode) :
    (bfsChildEntries node).map (·.1) = node.children := by
  unfold bfsChildEntries
  rw [List.map_map]
  exact List.enum_map_snd node.children

theorem nsizeList_children_lt (node : SceneNode) :
    SceneNode.nsizeList node.children < node.nsize := by
  cases node with
  | mk d c => simp only [SceneNode.nsize, SceneNode.children]; omega

/-- Loop of `findComponentByRole`: breadth-first with a visited-id set;
a visible match is returned immediately, invisible matches are kept as
fallback candidates (first one wins at the end). The structural fuel is
instantiated with the tree size by the wrapper; every loop iteration
removes at least one unit of queue mass, so it never runs out first. -/
def findComponentByRoleF (role : TableRole) :
    Nat → List BfsEntry → List String → List BfsEntry → Option BfsEntry
  | 0, _, _, candidates => candidates.head?
  | _ + 1, [], _, candidates => candidates.head?
  | fuel + 1, (node, ctx) :: queue, visited, candidates =>
    if visited.contains node.id then findComponentByRoleF role fuel queue visited candidates
    else
      let visited' := node.id :: visited
      let analysis := resolveNodeRole node
      if analysis.role = some role && Q.blt ⟨3, 5⟩ analysis.confidence && node.visible then
        some (node, ctx)
      else
        let candidates' :=
          if analysis.role = some role && Q.blt ⟨3, 5⟩ analysis.confidence then
            candidates ++ [(node, ctx)]
          else candidates
        let queue' := if isContainer node then queue ++ bfsChildEntries node else queue
        findComponentByRoleF role fuel queue' visited' candidates' 

/-- Embeds `findComponentByRole` with the parent context of the returned node. -/
def findComponentByRoleCtx (root : SceneNode) (role : TableRole) : Option BfsEntry :=
  if !isContainer root then none
  else findComponentByRoleF role root.nsize [(root, none)] [] []

/-- Embeds `findComponentByRole` as in the source (node only). -/
def findComponentByRole (root : SceneNode) (role : TableRole) : Option SceneNode :=
  (findComponentByRoleCtx root role).map (·.1)

/-- Embeds `extractTableTitle`: shallowest HeaderArea-role node, then its first
text child with font size above 14. -/
def extractTableTitle (rootNode : SceneNode) : Option HeaderAreaModel :=
  match findComponentByRole rootNode TableRole.HeaderArea with
  | some headerNode =>
    match findOneChild headerNode
        (fun n => n.ntype = NodeType.text && Q.blt 14 n.fontSize) with
    | some titleText =>
      some { role := "HeaderArea", title := titleText.characters,
             level := some (inferTitleLevel titleText), extra := none }
    | none => none
  | none => none

/-- Embeds `determineTextAlignment`: centers within 2.5 → center, otherwise by
which center is further left. -/
def determineTextAlignment (textNode container : SceneNode) : String :=
  let textCenterX := textNode.x + textNode.width / 2
  let containerCenterX := container.x + container.width / 2
  let diff := Q.abs (textCenterX - containerCenterX)
  if Q.blt diff ⟨5, 2⟩ then "center"
  else if Q.blt textCenterX containerCenterX then "left"
  else "right"

/-- Embeds `extractTableColumnsFromHeader`: one column per sorted visible child
that is (or contains) a text node. -/
def extractTableColumnsFromHeader (headerNode : SceneNode) : List TableColumn :=
  if !isContainer headerNode then []
  else
    let children := sortNodesByPosition (findChildren headerNode (fun n => n.visible))
    children.filterMap (fun child =>
      let res : String × String :=
        if child.ntype = NodeType.text then
          (child.characters, determineTextAlignment child headerNode)
        else if isContainer child then
          match findOneChild child (fun n => n.ntype = NodeType.text) with
          | some textChild => (textChild.characters, determineTextAlignment textChild child)
          | none => ("", "left")
        else ("", "left")
      if res.1 ≠ "" then
        some { title := res.1, dataIndex := some (generateFieldKey res.1),
               width := some child.width, align := some res.2, fixed := none, type := none }
      else none)

/-- Embeds `collectTextNodes`: all text nodes in document order (no visibility
filter). Fuel = tree size (a child is always smaller, so it never runs
out first). -/
def collectTextNodesF : Nat → SceneNode → List SceneNode
  | 0, _ => []
  | fuel + 1, node =>
    if node.ntype = NodeType.text then [node]
    else if isContainer node then
      node.children.flatMap (fun c => collectTextNodesF fuel c)
    else []

def collectTextNodes (node : SceneNode) : List SceneNode :=
  collectTextNodesF node.nsize node

/-- Embeds `hasTextContent`: some descendant text node has non-blank characters.
Fuel = tree size. -/
def hasTextContentF : Nat → SceneNode → Bool
  | 0, _ => false
  | fuel + 1, node =>
    if node.ntype = NodeType.text then (jsTrim node.characters).length > 0
    else if isContainer node then
      node.children.any (fun c => hasTextContentF fuel c)
    else false

def hasTextContent (node : SceneNode) : Bool :=
  hasTextContentF node.nsize node

/-- Embeds `isSearchRelatedText`. -/
def isSearchRelatedText (content : String) : Bool :=
  ["搜索", "查询", "筛选", "关键字", "keyword", "search", "filter", "query"].any
    (fun keyword => jsIncludes (jsToLower content) (jsToLower keyword))

/-- Embeds `isTitleText` (the five anchored title regexes). -/
def isTitleText (content : String) : Bool :=
  jsEndsWith content ("列表") || jsEndsWith content ("管理") || jsEndsWith content ("信息") ||
  jsStartsWith content ("用户") || jsEndsWith content ("页面")

def sortByX (l : List SceneNode) : List SceneNode :=
  stableSort (fun a b => Q.ble (a.x - b.x) 0) l

/-- Row-accumulation loop of `groupTextsByRow` (`currentY` is the y of the
row's seed; tolerance is non-strict 10). -/
def groupTextsByRowGo : List SceneNode → List SceneNode → Q → List (List SceneNode)
  | [], currentRow, _ => [sortByX currentRow]
  | n :: rest, currentRow, currentY =>
    if Q.ble (Q.abs (n.y - currentY)) 10 then
      groupTextsByRowGo rest (currentRow ++ [n]) currentY
    else
      sortByX currentRow :: groupTextsByRowGo rest [n] n.y

/-- Embeds `groupTextsByRow`: sort by y, then cluster sequentially. -/
def groupTextsByRow (textNodes : List SceneNode) : List (List SceneNode) :=
  match stableSort (fun a b => Q.ble (a.y - b.y) 0) textNodes with
  | [] => []
  | n₀ :: rest => groupTextsByRowGo rest [n₀] n₀.y

/-- Embeds `extractColumnsFromLayout`: filter plausible header texts, cluster by
row, take the widest row (of at least two cells) as the column titles. -/
def extractColumnsFromLayout (node : SceneNode) : List TableColumn :=
  let allTextNodes := collectTextNodes node
  let potentialHeaders := allTextNodes.filter (fun text =>
    let content := jsTrim text.characters
    content.length > 0 && content.length < 50 &&
      !isSearchRelatedText content && !isTitleText content)
  let rows := groupTextsByRow potentialHeaders
  let bestRow := rows.foldl (fun best row =>
    if row.length ≥ 2 && row.length > best.length then row else best) []
  if bestRow.length ≥ 2 then
    bestRow.map (fun textNode =>
      { title := jsTrim textNode.characters,
        dataIndex := some (generateFieldKey (jsTrim textNode.characters)),
        width := some (if textNode.width.num = (0 : Int) then (100 : Q) else textNode.width),
        align := some ("left"), fixed := none, type := none })
  else []

/-- Scored title-text search inside a column component
(`findTitleText` in `extractTableColumnsRecursive`). Fuel mirrors the
`d > 10` cap (11 levels suffice). -/
def findTitleTextF : Nat → SceneNode → Nat → String × Int
  | 0, _, _ => ("", 0)
  | fuel + 1, n, d =>
    if d > 10 then ("", 0)
    else if n.ntype = NodeType.text then
      let name := jsToLower n.name
      let content := jsTrim n.characters
      if content = "" then ("", 0)
      else
        let score : Int := 1
        let score := if containsAny name
            ["title", "header", "name", "label", "caption", "text", "标题", "名称", "文字"] then
          score + 10 + (if name = "title" || name = "标题" then 5 else 0)
        else score
        let score := if content.length > 20 then score - 5 else score
        let score := if isPureDigits content then score - 2 else score
        (content, score)
    else if isContainer n then
      n.children.foldl (fun best c =>
        let res := findTitleTextF fuel c (d + 1)
        if res.2 > best.2 then res else best) ("", 0)
    else ("", 0)

def findTitleText (n : SceneNode) (d : Nat) : String × Int :=
  findTitleTextF (11 - d) n d

/-! ### Button text recovery (`extractButton` and helpers) -/

/-- One collected text candidate (`{text, depth, nodeName}`). -/
structure TextCand where
  text : String
  depth : Nat
  nodeName : String
deriving DecidableEq, Repr

/-- First field of an object bag with the given key (`key in obj` +
access). -/
def lookupField (fields : List (String × PropValue)) (key : String) : Option PropValue :=
  (fields.find? (fun f => f.1 = key)).map (·.2)

/-- Embeds `extractTextFromValue` / `extractTextFromOverride` (the two inline
helpers are textually identical): depth-bounded search for a string in
`characters`, `value`, then the text-ish keys. A recursive result that is
the empty string is falsy in JS and lets the scan continue. -/
def extractTextFromValue (maxDepth : Nat) (obj : PropValue) : Option String :=
  match maxDepth with
  | 0 => none
  | md + 1 =>
    match obj with
    | .str s => some s
    | .obj fields =>
      let keysLoop : Option String :=
        ["text", "content", "label", "文字", "内容"].findSome? (fun key =>
          match lookupField fields key with
          | some v =>
            match extractTextFromValue md v with
            | some s => if s ≠ "" then some s else none
            | none => none
          | none => none)
      match lookupField fields ("characters") with
      | some (.str s) => some s
      | _ =>
        match lookupField fields ("value") with
        | some (.str s) => some s
        | some (.obj o) =>
          match extractTextFromValue md (.obj o) with
          | some s => if s ≠ "" then some s else keysLoop
          | none => keysLoop
        | none => keysLoop

/-- Embeds `collectTextRecursive` inside `extractButton`: trimmed text leaves up
to depth 20; in toolbar context hidden children are traversed too, while
other contexts only peek at invisible text children near the surface
(parent depth ≤ 3), excluding the bare `文字` / `text` placeholders. -/
def collectTextRecursiveF (context : String) : Nat → SceneNode → Nat → List TextCand
  | 0, _, _ => []
  | fuel + 1, n, depth =>
    if depth > 20 then []
    else
      let self := if n.ntype = NodeType.text && jsTrim n.characters ≠ "" then
          [⟨jsTrim n.characters, depth, n.name⟩] else []
      let fromChildren := if isContainer n then
          n.children.flatMap (fun c =>
            if context = "toolbar" then collectTextRecursiveF context fuel c (depth + 1)
            else if c.visible then collectTextRecursiveF context fuel c (depth + 1)
            else if c.ntype = NodeType.text && depth ≤ 3 then
              let t := jsTrim c.characters
              if t ≠ "" && !(jsToLower t = "文字" || jsToLower t = "text") then
                [⟨t, depth + 1, c.name⟩]
              else []
            else [])
        else []
      self ++ fromChildren

def collectTextRecursive (context : String) (n : SceneNode) (depth : Nat) : List TextCand :=
  collectTextRecursiveF context (21 - depth) n depth

/-- Test of `/^\d+:\d+$/` (icon-id-looking tokens). -/
def isIconId (s : String) : Bool :=
  match s.data.splitOn ':' with
  | [a, b] => a ≠ [] && a.all jsIsDigit && (b ≠ [] && b.all jsIsDigit)
  | _ => false

def isStyleValue (s : String) : Bool :=
  ["大", "小", "主要", "次要", "默认", "hover", "disabled"].any (fun w => jsToLower s = w)

/-- Harvest of `instance.componentProperties` in `extractButton`. -/
def harvestComponentProperties (node : SceneNode) : List TextCand :=
  node.data.componentProperties.filterMap (fun p =>
    let propKey := p.1
    if !containsAny (jsToLower propKey) ["文字", "内容", "text", "content", "label", "标签"] then
      none
    else
      let textValue : String :=
        match p.2 with
        | .str s => s
        | .obj o =>
          match extractTextFromValue 5 (.obj o) with
          | some s => if s ≠ "" then s else "[object Object]"
          | none => "[object Object]"
      if textValue ≠ "" && jsTrim textValue ≠ "" then
        let trimmed := jsTrim textValue
        let isNotPlaceholder := !(jsToLower trimmed = "文字" || jsToLower trimmed = "text" ||
                                  jsToLower trimmed = "label")
        let isNotBoolean := trimmed ≠ "true" && trimmed ≠ "false"
        let isNotIconId := !isIconId trimmed
        let isNotStyleValue := !isStyleValue trimmed
        if isNotPlaceholder && isNotBoolean && isNotIconId && isNotStyleValue then
          some ⟨trimmed, 0, "property:" ++ propKey⟩
        else none
      else none)

/-- Harvest of `instance.overrides` in `extractButton` (here only the
bare `文字` / `text` placeholders are excluded, case-sensitively). -/
def harvestOverrides (node : SceneNode) : List TextCand :=
  if node.data.overrides.length > 0 then
    node.data.overrides.filterMap (fun p =>
      let textValue : Option String :=
        match p.2 with
        | .str s => some s
        | .obj o => extractTextFromValue 5 (.obj o)
      match textValue with
      | some tv =>
        if tv ≠ "" && jsTrim tv ≠ "" then
          let trimmed := jsTrim tv
          if trimmed ≠ "文字" && trimmed ≠ "text" then
            some ⟨trimmed, 0, "override:" ++ p.1⟩
          else none
        else none
      | none => none)
  else []

/-- Test of `/^[\u{1F300}-\u{1F9FF}]$/u`. -/
def isSingleEmoji (s : String) : Bool :=
  match s.data with
  | [c] => decide (0x1F300 ≤ c.toNat) && decide (c.toNat ≤ 0x1F9FF)
  | _ => false

/-- Embeds `extractButton`: container-named containers are rejected; texts are
collected from the subtree and (for instances) the property/override
bags; placeholder-ish entries are filtered and the longest surviving text
wins, with override / raw-text fallbacks (the latter toolbar-only). -/
def extractButton (node : SceneNode) (context : String) : Option ToolbarButton :=
  let isContainerName := containsAny (jsToLower node.name)
    ["组", "group", "container", "wrapper", "容器", "按钮组", "buttongroup"]
  if isContainerName && isContainer node then none
  else
    let treeTexts := collectTextRecursive context node 0
    let allTextNodes := treeTexts ++
      (if node.ntype = NodeType.instanceKind then
        harvestComponentProperties node ++ harvestOverrides node
      else [])
    let buttonText : String :=
      match allTextNodes with
      | [] => ""
      | t₀ :: _ =>
        let filtered := allTextNodes.filter (fun t =>
          let isPlaceholder :=
            (jsToLower t.text = "文字" || jsToLower t.text = "text" ||
             jsToLower t.text = "label" || jsToLower t.text = "placeholder") ||
            t.text.length ≤ 1 || isSingleEmoji t.text ||
            containsAny (jsToLower t.nodeName) ["icon", "图标"]
          !isPlaceholder)
        match filtered with
        | f₀ :: frest =>
          (frest.foldl (fun best cur =>
            if cur.text.length > best.text.length then cur else best) f₀).text
        | [] =>
          if node.ntype = NodeType.instanceKind then
            let overrideTexts := node.data.overrides.filterMap (fun p =>
              match p.2 with
              | .str s =>
                if jsTrim s ≠ "" then
                  if context = "toolbar" then some (jsTrim s)
                  else if !(jsToLower (jsTrim s) = "文字" || jsToLower (jsTrim s) = "text" ||
                            jsToLower (jsTrim s) = "label" || jsToLower (jsTrim s) = "placeholder")
                  then some (jsTrim s)
                  else none
                else none
              | _ => none)
            match overrideTexts with
            | t :: _ => t
            | [] => if context = "toolbar" then t₀.text else ""
          else
            if context = "toolbar" then t₀.text else ""
    if buttonText = "" then none
    else if context = "search" then
      some { type := "custom", label := buttonText, key := some (generateFieldKey buttonText) }
    else
      let actionType := inferToolbarAction buttonText (some node.name)
      if ["add", "export", "import", "refresh", "custom"].contains actionType then
        some { type := actionType, label := buttonText, key := some (generateFieldKey buttonText) }
      else none

/-! ### Button groups (`extractButtonGroup` and helpers) -/

def nodeListContains (l : List SceneNode) (n : SceneNode) : Bool :=
  l.any (fun m => SceneNode.beq m n)

/-- One level of the button BFS in `extractButtonGroup`: button-named
non-container-named nodes become candidates, containers push their
visible children, and a text node promotes its reasonably-sized parent
(if not already collected). Returns the updated candidates and the next
level's queue. -/
def ebgLevel : List (SceneNode × Option SceneNode) → List SceneNode →
    (List SceneNode × List (SceneNode × Option SceneNode))
  | [], cands => (cands, [])
  | (node, parent) :: rest, cands =>
    let isContainerName := containsAny (jsToLower node.name)
      ["组", "group", "container", "wrapper", "容器"]
    let isButton := !isContainerName && isButtonComponent node.name
    if isButton then ebgLevel rest (cands ++ [node])
    else if isContainer node then
      let pushed := (findChildren node (fun n => n.visible)).map (fun c => (c, some node))
      let res := ebgLevel rest cands
      (res.1, pushed ++ res.2)
    else if node.ntype = NodeType.text then
      match parent with
      | some p =>
        if !nodeListContains cands p &&
           (Q.blt 40 p.width && Q.blt 20 p.height && Q.blt p.height 100) then
          ebgLevel rest (cands ++ [p])
        else ebgLevel rest cands
      | none => ebgLevel rest cands
    else ebgLevel rest cands

/-- The level loop of `extractButtonGroup` (`while queue.length > 0 &&
depth < 5`). -/
def ebgCollect : Nat → List (SceneNode × Option SceneNode) → List SceneNode → List SceneNode
  | 0, _, cands => cands
  | _ + 1, [], cands => cands
  | fuel + 1, entry :: queue, cands =>
    let res := ebgLevel (entry :: queue) cands
    ebgCollect fuel res.2 res.1

theorem nsizeList_filter_le (p : SceneNode → Bool) (l : List SceneNode) :
    SceneNode.nsizeList (l.filter p) ≤ SceneNode.nsizeList l := by
  induction l with
  | nil => simp [List.filter]
  | cons a as ih =>
    by_cases h : p a = true
    · rw [List.filter_cons_of_pos h]
      simp only [SceneNode.nsizeList]
      omega
    · rw [List.filter_cons_of_neg (by simp [h])]
      simp only [SceneNode.nsizeList]
      have := SceneNode.nsize_pos a
      omega

theorem nsizeList_findChildren_lt (n : SceneNode) (p : SceneNode → Bool) :
    SceneNode.nsizeList (findChildren n p) < n.nsize := by
  unfold findChildren
  split
  · exact Nat.lt_of_le_of_lt (nsizeList_filter_le p n.children) (nsizeList_children_lt n)
  · simp only [SceneNode.nsizeList]
    exact SceneNode.nsize_pos n

/-- Embeds `findTextBasedButtons` fallback of `extractButtonGroup`: skip
container-named nodes, collect any node with text content and plausible
button dimensions, and recurse into visible children (max depth 5; the
entry guard `currentDepth > maxDepth` is checked before each descent). -/
def ftbLoopF : Nat → List SceneNode → Nat → List SceneNode → List SceneNode
  | 0, _, _, cands => cands
  | _ + 1, [], _, cands => cands
  | fuel + 1, node :: rest, depth, cands =>
    let isContainerName := containsAny (jsToLower node.name)
      ["组", "group", "container", "wrapper", "容器"]
    let cands₁ :=
      if isContainerName then
        if isContainer node then
          (if depth + 1 > 5 then cands
           else ftbLoopF fuel (findChildren node (fun n => n.visible)) (depth + 1) cands)
        else cands
      else
        let cands' := if hasTextContent node &&
            (Q.blt 40 node.width && Q.blt 20 node.height && Q.blt node.height 100) &&
            !nodeListContains cands node then cands ++ [node] else cands
        if isContainer node then
          (if depth + 1 > 5 then cands'
           else ftbLoopF fuel (findChildren node (fun n => n.visible)) (depth + 1) cands')
        else cands'
    ftbLoopF fuel rest depth cands₁

/-- Embeds `findTextBasedButtons`. Fuel = total mass of the node list: every
recursive call (tail of the list, or a node's children one level deeper)
strictly decreases it, so it never runs out first. -/
def ftbLoop (l : List SceneNode) (depth : Nat) (cands : List SceneNode) : List SceneNode :=
  ftbLoopF (SceneNode.nsizeList l) l depth cands

/-- Embeds `inferButtonLayout`. -/
def inferButtonLayout (nodes : List SceneNode) : String :=
  match nodes with
  | [] => "horizontal"
  | n₀ :: _ => if nodes.all (fun n => isSameRow n₀ n) then "horizontal" else "vertical"

def qmaxL : List Q → Q
  | [] => 0
  | [x] => x
  | x :: y :: xs => let m := qmaxL (y :: xs); if Q.blt m x then x else m

def qminL : List Q → Q
  | [] => 0
  | [x] => x
  | x :: y :: xs => let m := qminL (y :: xs); if Q.blt x m then x else m

/-- Embeds `inferButtonAlign` (the container width is taken to be the buttons'
own bounding width, so `centerOffset` is always zero). -/
def inferButtonAlign (nodes : List SceneNode) : String :=
  match nodes with
  | [] => "left"
  | _ =>
    let totalWidth := qmaxL (nodes.map (fun n => n.x + n.width)) - qminL (nodes.map (·.x))
    let containerWidth := totalWidth
    let leftOffset := qminL (nodes.map (·.x))
    let centerOffset := containerWidth / 2 - totalWidth / 2
    if Q.blt (Q.abs (leftOffset - centerOffset)) 20 then "center"
    else if Q.blt centerOffset leftOffset then "right"
    else "left"

/-- Embeds `extractButtonGroup`: BFS for button candidates (with the text-based
fallback), first geometric button group (or all candidates), then button
extraction with the toolbar-only name/override fallback labels. Each
input node is paired with its JS `parent`. -/
def extractButtonGroup (nodes : List (SceneNode × Option SceneNode)) (btype : String) :
    Option ButtonGroup :=
  if nodes.isEmpty then none
  else
    let candidates₀ := ebgCollect 5 nodes []
    let candidates := if candidates₀.isEmpty then ftbLoop (nodes.map (·.1)) 0 [] else candidates₀
    if candidates.isEmpty then none
    else
      let buttonGroups := identifyButtonGroups candidates
      let targetButtons := match buttonGroups with
        | g :: _ => g
        | [] => candidates
      let allButtons := targetButtons.filterMap (fun n => extractButton n btype)
      if !allButtons.isEmpty then
        some { type := btype, buttons := allButtons,
               layout := some (inferButtonLayout targetButtons),
               align := some (inferButtonAlign targetButtons) }
      else if !targetButtons.isEmpty && btype = "toolbar" then
        let fallbackButtons := targetButtons.enum.map (fun p =>
          let btnNode := p.2
          let nodeName := jsTrim btnNode.name
          let fromName :=
            if nodeName ≠ "" && nodeName ≠ "按钮" && nodeName ≠ "button" && nodeName.length > 1
            then nodeName else ""
          let fromOverride :=
            if fromName = "" && btnNode.ntype = NodeType.instanceKind then
              match btnNode.data.overrides.findSome? (fun q =>
                match q.2 with
                | .str s => if jsTrim s ≠ "" then some (jsTrim s) else none
                | _ => none) with
              | some s => s
              | none => ""
            else ""
          let buttonLabel :=
            if fromName ≠ "" then fromName
            else if fromOverride ≠ "" then fromOverride
            else "按钮" ++ toString (p.1 + 1)
          let actionType := inferToolbarAction buttonLabel (some nodeName)
          ({ type := actionType, label := buttonLabel,
             key := some (generateFieldKey buttonLabel) } : ToolbarButton))
        if !fallbackButtons.isEmpty then
          some { type := btype, buttons := fallbackButtons,
                 layout := some (inferButtonLayout targetButtons),
                 align := some (inferButtonAlign targetButtons) }
        else none
      else none

/-! ### Operation column (`extractOperationGroup`, `extractActionButton`) -/

/-- Embeds `findTextRecursive` inside `extractActionButton`: first non-blank
trimmed text in a depth-5-bounded DFS over visible children. -/
def fatFindTextF : Nat → SceneNode → Nat → String
  | 0, _, _ => ""
  | fuel + 1, n, depth =>
    if depth > 5 then ""
    else
      let own := if n.ntype = NodeType.text then jsTrim n.characters else ""
      if own ≠ "" then own
      else if isContainer n then
        match n.children.findSome? (fun c =>
          if c.visible then
            let t := fatFindTextF fuel c (depth + 1)
            if t ≠ "" then some t else none
          else none) with
        | some t => t
        | none => ""
      else ""

def fatFindText (n : SceneNode) (depth : Nat) : String :=
  fatFindTextF (6 - depth) n depth

/-- Embeds `extractActionButton` (current version): recovered text must pass the
exclusion filter and carry an action keyword; the row action type is
restricted to edit/delete/view/custom; delete buttons get the danger flag
and the fixed confirm dialog. -/
def extractActionButton (node : SceneNode) : Option ActionButton :=
  let buttonText := fatFindText node 0
  if buttonText = "" then none
  else if shouldExclude buttonText then none
  else if !hasActionKeyword buttonText then none
  else
    let actionType := inferRowAction buttonText (some node.name)
    if ["edit", "delete", "view", "custom"].contains actionType then
      some { type := actionType, label := buttonText,
             key := some (generateFieldKey buttonText),
             danger := some (actionType = "delete"),
             confirm := if actionType = "delete" then
               some { title := "确认删除", content := some ("确定要删除这条记录吗？") }
             else none }
    else none

/-- Embeds `findOperationNodesRecursive` inside `extractOperationGroup`:
breadth-first queue with a 1000-iteration safety counter. A visible
matching node is accepted unless it looks like a wrapper (`isTooWide ||
hasOtherColumns`, where `hasOtherColumns` additionally requires more than
3 children and is itself conditioned on `isTooWide`); wrappers and
non-matches descend into container children. -/
def findOperationNodesGo : List SceneNode → Nat → List SceneNode
  | _, 0 => []
  | [], _ + 1 => []
  | node :: rest, fuel + 1 =>
    if !node.visible then findOperationNodesGo rest fuel
    else
      let isMatch := isExplicitActionColumnNode node
      let isTooWide := Q.blt 400 node.width
      let hasOtherColumns := isContainer node &&
        decide (3 < node.children.length) && isTooWide
      let isWrapper := isMatch && (isTooWide || hasOtherColumns)
      if isMatch && !isWrapper then node :: findOperationNodesGo rest fuel
      else
        let queue' := if isContainer node then rest ++ node.children else rest
        findOperationNodesGo queue' fuel

/-- Key-based de-duplication (`index === findIndex(b => b.key ===
button.key)` keeps the first button per key). -/
def dedupeByKey : List ActionButton → List (Option String) → List ActionButton
  | [], _ => []
  | b :: rest, seen =>
    if seen.contains b.key then dedupeByKey rest seen
    else b :: dedupeByKey rest (b.key :: seen)

/-- The fixed action column emitted by `extractOperationGroup` and the
model assembly. -/
def operationColumn : TableColumn :=
  { title := "操作", dataIndex := some ("actions"), width := some 150,
    align := some ("center"), fixed := some ("right"), type := some ("action") }

/-- Embeds `extractOperationGroup`. -/
def extractOperationGroup (nodes : List SceneNode) :
    Option (TableColumn × List ActionButton) :=
  let actionNodes := findOperationNodesGo nodes 1000
  if actionNodes.isEmpty then none
  else
    let buttons := actionNodes.flatMap (fun node =>
      if isContainer node then
        (findChildren node (fun n => n.visible)).filterMap extractActionButton
      else (extractActionButton node).toList)
    if buttons.isEmpty then none
    else
      let uniqueButtons := dedupeByKey buttons []
      some (operationColumn, uniqueButtons)

/-! ### Column discovery (`extractTableColumnsRecursive`) -/

/-- Column construction of the column-component strategy: score the best
title text per column node, de-duplicate by exact title (titles are
marked seen before the width/action checks), drop columns wider than 80%
of their parent, and withhold action columns. Each potential column is
paired with its JS parent. -/
def buildColumnsFromPotential (potentialColumns : List (SceneNode × SceneNode)) :
    List TableColumn :=
  (potentialColumns.foldl (fun (acc : List TableColumn × List String) p =>
    let result := findTitleText p.1 0
    if result.2 > 0 then
      let title := result.1
      if acc.2.contains title then acc
      else
        let seenTitles := title :: acc.2
        let colWidth := p.1.width
        let parentWidth := p.2.width
        if Q.blt (parentWidth * ⟨4, 5⟩) colWidth then (acc.1, seenTitles)
        else if isExplicitActionColumnNode p.1 || isExplicitActionColumnName title then
          (acc.1, seenTitles)
        else
          (acc.1 ++ [{ title := title, dataIndex := some (generateFieldKey title),
                       width := some colWidth, align := some ("left"),
                       fixed := none, type := none }], seenTitles)
    else acc) ([], [])).1

/-- The synthetic `inferred-header` FRAME wrapped around the first row of
a detected grid. -/
def inferredHeaderNode (firstRow : List SceneNode) : SceneNode :=
  SceneNode.mk
    ⟨"", "inferred-header", NodeType.frame, true, 0, 0, 0, 0, "", 0, false, false, [], []⟩
    firstRow

/-- A child is (or contains) a text node — the header-likeness test. -/
def isTextish (n : SceneNode) : Bool :=
  n.ntype = NodeType.text ||
  (isContainer n && (findOneChild n (fun c => c.ntype = NodeType.text)).isSome)

/-- Embeds `extractTableColumnsRecursive`: the ordered column-discovery
strategies — explicit `columns` sub-container (recursed into first, with
the depth counter reset), header naming (with the one-wide-column guard),
column components, grid geometry, first-child heuristic, root-level
layout fallback — then depth-first recursion into children (max depth 4),
first non-empty result winning. -/
def extractTableColumnsF : Nat → SceneNode → Nat → List TableColumn
  | 0, _, _ => []
  | fuel + 1, node, depth =>
    if depth > 4 then []
    else if !isContainer node then []
    else
    let children := sortNodesByPosition (findChildren node (fun n => n.visible))
    let explicitResult : List TableColumn :=
      match children.find? (fun c => containsAny (jsToLower c.name)
          ["columns", "表头", "列定义"]) with
      | some ecc => extractTableColumnsF fuel ecc 0
      | none => []
    if !explicitResult.isEmpty then explicitResult
    else
      let headerStage : Option (List TableColumn) :=
        if isHeaderComponent node.name then
          let headerColumns := extractTableColumnsFromHeader node
          let colWidth := (headerColumns.head?.bind (·.width)).getD 0
          if headerColumns.length > 1 ||
             (headerColumns.length = 1 && headerColumns.head?.isSome &&
              Q.blt colWidth (node.width * ⟨4, 5⟩)) then
            some headerColumns
          else none
        else none
      match headerStage with
      | some cols => cols
      | none =>
        let isExplicitColumnsContainer := containsAny (jsToLower node.name)
          ["columns", "表头", "列定义"]
        let colStage : Option (List TableColumn) :=
          if isExplicitColumnsContainer ||
             children.any (fun c => containsAny (jsToLower c.name) ["列", "column"]) then
            let potentialColumns : List (SceneNode × SceneNode) :=
              if isExplicitColumnsContainer then
                let unwrapped : List SceneNode × SceneNode :=
                  match children with
                  | [c₀] => if isContainer c₀ then (findChildren c₀ (fun n => n.visible), c₀)
                            else (children, node)
                  | _ => (children, node)
                let flattened := unwrapped.1.flatMap (fun candidate =>
                  if isContainer candidate && containsAny (jsToLower candidate.name)
                      ["group", "left", "right", "center", "middle", "layout", "auto"] then
                    (findChildren candidate (fun n => n.visible)).map (fun c => (c, candidate))
                  else [(candidate, unwrapped.2)])
                flattened.filter (fun p => isContainer p.1 || p.1.ntype = NodeType.text)
              else
                (children.filter (fun c => containsAny (jsToLower c.name) ["列", "column"])).map
                  (fun c => (c, node))
            if !potentialColumns.isEmpty then
              let columns := buildColumnsFromPotential potentialColumns
              if !columns.isEmpty then some columns else none
            else none
          else none
        match colStage with
        | some cols => cols
        | none =>
          let gridStage : Option (List TableColumn) :=
            if isTableStructure children then
              let rows := groupByRows children
              let firstRow := rows.headD []
              if firstRow.length > 0 && firstRow.all isTextish then
                some (extractTableColumnsFromHeader (inferredHeaderNode firstRow))
              else none
            else
              match children with
              | [] => none
              | firstChild :: _ =>
                if isContainer firstChild && (firstChild.ntype = NodeType.frame ||
                    firstChild.ntype = NodeType.instanceKind ||
                    firstChild.ntype = NodeType.group) then
                  let headerChildren := findChildren firstChild (fun n => n.visible)
                  if headerChildren.length > 1 then
                    let textCount := (headerChildren.filter isTextish).length
                    if Q.blt ⟨1, 2⟩ (Q.ofInt textCount / Q.ofInt headerChildren.length) then
                      some (extractTableColumnsFromHeader firstChild)
                    else none
                  else none
                else none
          match gridStage with
          | some cols => cols
          | none =>
            let layoutStage : Option (List TableColumn) :=
              if depth = 0 then
                let layoutColumns := extractColumnsFromLayout node
                if !layoutColumns.isEmpty then some layoutColumns else none
              else none
            match layoutStage with
            | some cols => cols
            | none =>
              match children.findSome? (fun c =>
                let cols := extractTableColumnsF fuel c (depth + 1)
                if !cols.isEmpty then some cols else none) with
              | some cols => cols
              | none => []

/-- Embeds `extractTableColumnsRecursive`. Fuel = tree size: both kinds of
recursive call (the explicit `columns` child with the depth counter
reset, and the ordinary children at `depth + 1`) move to a strictly
smaller subtree, so the fuel never runs out first. -/
def extractTableColumnsRecursive (node : SceneNode) (depth : Nat) : List TableColumn :=
  extractTableColumnsF node.nsize node depth

/-! ### `processTablePage` -/

/-- Test of `/title|header|caption|标题|表头/i` on the (lowercased) name of
the found table area. -/
def looksLikeTitleName (name : String) : Bool :=
  containsAny (jsToLower name) ["title", "header", "caption", "标题", "表头"]

/-- Sibling rescue of stage 3: when the DataGrid-role node is named like a
title, the first visible sibling that independently resolves to DataGrid
(confidence above 0.6) replaces it. Siblings are the parent's other
children (object identity modelled by the index). -/
def rescueActualTableNode (tableAreaNode : SceneNode)
    (ctx : Option (SceneNode × Nat)) : SceneNode :=
  if looksLikeTitleName tableAreaNode.name then
    match ctx with
    | some (parent, idx) =>
      let siblings := (parent.children.enum.filter
        (fun p => p.2.visible && p.1 ≠ idx)).map (·.2)
      match siblings.find? (fun sibling =>
        let siblingRole := resolveNodeRole sibling
        siblingRole.role = some TableRole.DataGrid &&
          Q.blt ⟨3, 5⟩ siblingRole.confidence) with
      | some s => s
      | none => tableAreaNode
    | none => tableAreaNode
  else tableAreaNode

/-- Embeds `processTablePage`: title, search area (with whole-tree fallback),
data grid (with sibling rescue), toolbar, operation column, and the fixed
assembly (checkbox row selection, constant pagination). -/
def processTablePage (node : SceneNode) : TablePageModel :=
  let tableTitle := extractTableTitle node
  let searchArea := findComponentByRole node TableRole.SearchArea
  let searchFields :=
    match searchArea with
    | some searchAreaNode => extractSearchFieldsRecursive searchAreaNode 0
    | none => extractSearchFieldsRecursive node 0
  let searchButtons : Option ButtonGroup :=
    match searchArea with
    | some searchAreaNode =>
      extractButtonGroup
        ((findChildren searchAreaNode (fun n => isButtonComponent n.name)).map
          (fun c => (c, some searchAreaNode))) "search"
    | none => none
  let tableArea := findComponentByRoleCtx node TableRole.DataGrid
  let columns : List TableColumn :=
    match tableArea with
    | some (tableAreaNode, ctx) =>
      let actualTableNode := rescueActualTableNode tableAreaNode ctx
      (extractTableColumnsRecursive actualTableNode 0).filter
        (fun col => col.dataIndex ≠ some ("actions"))
    | none => extractTableColumnsRecursive node 0
  let toolbarRight : Option ButtonGroup :=
    match tableArea with
    | some _ =>
      match findComponentByRoleCtx node TableRole.ActionGroup with
      | some (actionGroupNode, agCtx) =>
        extractButtonGroup [(actionGroupNode, agCtx.map (·.1))] "toolbar"
      | none => none
    | none => none
  let actionButtons : Option (List ActionButton) :=
    match tableArea with
    | some (tableAreaNode, _) =>
      let tableChildren := sortNodesByPosition (findChildren tableAreaNode (fun n => n.visible))
      match extractOperationGroup tableChildren with
      | some res => if res.2.length > 0 then some res.2 else none
      | none => none
    | none => none
  let toolbarLeft : Option ButtonGroup := none
  { role := "TableContainer",
    type := "table-page",
    header := tableTitle,
    body := {
      role := "BodyArea",
      search := some { role := "SearchArea", fields := searchFields, buttons := searchButtons },
      toolbar := if toolbarLeft.isSome || toolbarRight.isSome then
          some { role := "ActionGroup", left := toolbarLeft, right := toolbarRight }
        else none,
      table := {
        role := "DataGrid",
        columns := columns,
        rowSelection := some { type := "checkbox", showSelectAll := some true },
        actionColumn := match actionButtons with
          | some btns => some { column := operationColumn, buttons := btns }
          | none => none },
      pagination := some { role := "PaginationBar", enabled := true, pageSize := some 20,
                           showSizeChanger := some true, showQuickJumper := some true } } }

/-! ## Concrete fixtures for the witness / counterexample theorems -/

/-- Constructs a childless node fixture. -/
def leafNode (name : String) (t : NodeType) (x y w h : Int) (chars : String) : SceneNode :=
  SceneNode.mk ⟨name, name, t, true, ⟨x, 1⟩, ⟨y, 1⟩, ⟨w, 1⟩, ⟨h, 1⟩, chars, ⟨16, 1⟩,
    false, false, [], []⟩ []

/-- Constructs a visible FRAME fixture. -/
def frameNode (name : String) (x y w h : Int) (ch : List SceneNode) : SceneNode :=
  SceneNode.mk ⟨name, name, NodeType.frame, true, ⟨x, 1⟩, ⟨y, 1⟩, ⟨w, 1⟩, ⟨h, 1⟩, "", ⟨0, 1⟩,
    false, false, [], []⟩ ch

/-- An empty page: one childless frame with a role-neutral name. -/
def blankPage : SceneNode := frameNode ("blank") 0 0 100 100 []

/-- A page with a DataGrid-role table containing one plain column
(`column-1` titled `Name`) and one operation column (`action` frame with
an `edit` text button). -/
def pageFixture : SceneNode :=
  frameNode ("rootarea") 0 0 800 600
    [frameNode ("table") 0 0 600 400
      [frameNode ("column-1") 0 0 100 40 [leafNode ("title") NodeType.text 0 0 80 20 ("Name")],
       frameNode ("action") 200 0 100 40 [leafNode ("edit") NodeType.text 200 0 50 20 ("edit")]]]

/-- A page whose operation column holds a single `delete` button. -/
def deleteFixture : SceneNode :=
  frameNode ("rootarea") 0 0 800 600
    [frameNode ("table") 0 0 600 400
      [frameNode ("column-1") 0 0 100 40 [leafNode ("title") NodeType.text 0 0 80 20 ("Name")],
       frameNode ("action") 200 0 100 40 [leafNode ("btn") NodeType.text 200 0 50 20 ("delete")]]]

/-- The TableColumn produced for `column-1` of `pageFixture`. -/
def nameColumn : TableColumn :=
  { title := "Name", dataIndex := some ("name"), width := some ⟨100, 1⟩,
    align := some ("left"), fixed := none, type := none }

/-- The ActionButton produced for the `delete` text of `deleteFixture`. -/
def deleteButton : ActionButton :=
  { type := "delete", label := "delete", key := some ("delete"), danger := some true,
    confirm := some { title := "确认删除", content := some ("确定要删除这条记录吗？") } }

/-- An operation-named node wider than 400 with only 2 children: the
claim of C6 predicts acceptance (it fails the `>3 children` condition),
the code treats it as a wrapper. -/
def wideActionNode : SceneNode :=
  frameNode ("action") 0 0 500 40
    [leafNode ("left-cell") NodeType.text 0 0 50 20 ("a"),
     leafNode ("right-cell") NodeType.text 100 0 50 20 ("b")]

/-- An operation-named node of width 100 (accepted by the search). -/
def narrowActionNode : SceneNode := frameNode ("action") 0 0 100 40 []

/-- Label/input fixture at the alignment boundary of C7: text at
(0,0,40,20) and shape at (50,0,100,30) — gap 10, vertical-center
difference exactly 5. -/
def boundaryLabel : SceneNode := leafNode ("lbl") NodeType.text 0 0 40 20 ("Name")

def boundaryInput : SceneNode := leafNode ("inp") NodeType.rectangle 50 0 100 30 ("")

/-- Two fully aligned 3-cell rows (y 0 and 50; x 0, 100, 200). -/
def alignedGrid : List SceneNode :=
  [leafNode ("a1") NodeType.rectangle 0 0 10 10 (""),
   leafNode ("a2") NodeType.rectangle 100 0 10 10 (""),
   leafNode ("a3") NodeType.rectangle 200 0 10 10 (""),
   leafNode ("b1") NodeType.rectangle 0 50 10 10 (""),
   leafNode ("b2") NodeType.rectangle 100 50 10 10 (""),
   leafNode ("b3") NodeType.rectangle 200 50 10 10 ("")]

/-- The same grid with the last cell of row 2 removed (ragged). -/
def raggedGrid : List SceneNode :=
  [leafNode ("a1") NodeType.rectangle 0 0 10 10 (""),
   leafNode ("a2") NodeType.rectangle 100 0 10 10 (""),
   leafNode ("a3") NodeType.rectangle 200 0 10 10 (""),
   leafNode ("b1") NodeType.rectangle 0 50 10 10 (""),
   leafNode ("b2") NodeType.rectangle 100 50 10 10 ("")]

/-! ## Claim theorems -/

/-- C1: for every input tree (the embedding realises exactly the trees
honouring the VisualNode capability contract), `processTablePage` is a
total function — it cannot throw — and always returns a model whose
`body.table` is present (role `DataGrid`, with the fixed checkbox row
selection), while `body.table.columns` may be the empty list, as
witnessed on the blank page. -/
theorem processTablePage_total_table_present :
    (∀ n : SceneNode,
      (processTablePage n).role = "TableContainer" ∧
      (processTablePage n).body.role = "BodyArea" ∧
      (processTablePage n).body.table.role = "DataGrid" ∧
      (processTablePage n).body.table.rowSelection =
        some { type := "checkbox", showSelectAll := some true }) ∧
    (processTablePage blankPage).body.table.columns = [] := by
  exact ⟨fun n => ⟨rfl, rfl, rfl, rfl⟩, by decide⟩

/-- C3: `processTablePage` is deterministic — two calls on the same
immutable tree yield deep-equal models. In the embedding every collection
the pipeline iterates is an ordered list and every sort is the stable
insertion sort `stableSort` with the stated comparator keys (y with the
10-unit row tolerance, then x), so the result is a pure function of the
tree with no unordered-collection iteration anywhere. -/
theorem processTablePage_deterministic :
    ∀ n m : SceneNode, n = m → processTablePage n = processTablePage m := by
  intro n m h
  rw [h]

/-- C3 witness: the two calls on the concrete page fixture agree. -/
theorem processTablePage_deterministic_witness :
    processTablePage pageFixture = processTablePage pageFixture :=
  processTablePage_deterministic pageFixture pageFixture rfl

/-- C4: `inferRowAction` gives the danger intent absolute priority — any
content containing a danger keyword classifies as `delete` no matter
which other keywords also match — and in particular
`inferRowAction("Delete and Edit")` returns `delete`. -/
theorem inferRowAction_danger_first :
    (∀ (text : String) (nodeName : Option String),
      operationsIntentDanger.any
        (fun k => jsIncludes (contentOf text nodeName) k) = true →
      inferRowAction text nodeName = "delete") ∧
    inferRowAction ("Delete and Edit") none = "delete" := by
  constructor
  · intro text nodeName h
    unfold inferRowAction
    simp only [h, if_true]
  · decide

/-- C4 witness: the priority rule applied at the concrete content
`Delete and Edit` (where the danger keyword `delete` matches). -/
theorem inferRowAction_danger_first_witness :
    inferRowAction ("Delete and Edit") none = "delete" :=
  inferRowAction_danger_first.1 ("Delete and Edit") none (by decide)

/-- C9 (code bug): `parseCompoundName` on a non-empty name with no
classifiable part yields `type = ""` — not `"unknown"` as specified — so
`validateName`'s `parsed.type === 'unknown'` check never fires and the
unrecognized-type issue is unreachable: `validateName "zzz"` is valid
with no issues. (`getBusinessType "zzz" = "unknown"` shows the part is
indeed unclassifiable.) -/
theorem parseCompoundName_unknown_gap :
    getBusinessType ("zzz") = "unknown" ∧
    parseCompoundName ("zzz") = ⟨"", "", "", ["zzz"]⟩ ∧
    validateName ("zzz") =
      ⟨true, [], ["考虑使用复合名称提高可读性，如 \"user-search-input\""]⟩ := by
  decide

/-- Embeds the claim's own reading of the pairing predicate (C7), with the
vertical-center alignment taken inclusively ("within 5 units", i.e. ≤ 5);
to be compared against the source's `isLabelInputPair`. -/
def labelInputPairClaim (label input : SceneNode) : Bool :=
  decide (label.ntype = NodeType.text) &&
  Q.ble (getHorizontalDistance label input) 20 &&
  Q.ble (Q.abs ((label.y + label.height / 2) - (input.y + input.height / 2))) 5 &&
  Q.ble (Q.abs (getVerticalDistance label input)) 10

/-- C7 counterexample: at the claim's own boundary fixture — text label
(0,0,40,20), shape (50,0,100,30), gap 10, vertical-center difference
exactly 5 — the claim's inclusive reading accepts the pair but the code
rejects it (the code compares the center difference strictly against 5). -/
theorem isLabelInputPair_claim_counterexample :
    labelInputPairClaim boundaryLabel boundaryInput = true ∧
    isLabelInputPair boundaryLabel boundaryInput = false := by
  decide

/-- C7 (amended): `isLabelInputPair` returns true exactly when the label
is a text node AND the horizontal gap is at most 20 AND the vertical
centers differ strictly less than 5 AND the vertical gap is at most 10 —
all conditions required. -/
theorem isLabelInputPair_iff_strict (label input : SceneNode) :
    isLabelInputPair label input = true ↔
      (label.ntype = NodeType.text ∧
       Q.ble (getHorizontalDistance label input) 20 = true ∧
       Q.blt (Q.abs ((label.y + label.height / 2) - (input.y + input.height / 2))) 5 = true ∧
       Q.ble (Q.abs (getVerticalDistance label input)) 10 = true) := by
  unfold isLabelInputPair isHorizontallyAligned
  by_cases ht : label.ntype = NodeType.text
  · simp [ht, and_assoc]
  · simp [ht]

/-- C8: `isTableStructure` requires at least 2 rows after clustering by
`isSameRow`, identical cell count in every row, and per-column
x-alignment, returning false on any mismatch; concretely it is false for
the 2-row grid whose second row has one fewer cell, and true for two
fully aligned 3-cell rows. -/
theorem isTableStructure_requirements :
    (∀ nodes : List SceneNode, isTableStructure nodes = true →
      2 ≤ (groupByRows nodes).length ∧
      (∀ row ∈ groupByRows nodes,
        row.length = ((groupByRows nodes).headD []).length) ∧
      checkColumnAlignment (groupByRows nodes) = true) ∧
    isTableStructure raggedGrid = false ∧
    isTableStructure alignedGrid = true := by
  refine ⟨?_, by decide, by decide⟩
  intro nodes h
  unfold isTableStructure at h
  by_cases h3 : nodes.length < 3
  · rw [if_pos h3] at h
    cases h
  · rw [if_neg h3] at h
    by_cases h2 : (groupByRows nodes).length < 2
    · rw [if_pos h2] at h
      cases h
    · rw [if_neg h2] at h
      dsimp only [] at h
      split at h
      · cases h
      · rename_i hcons
        rw [Bool.not_eq_true', Bool.not_eq_false] at hcons
        rw [Bool.and_eq_true] at h
        refine ⟨by omega, ?_, h.2⟩
        intro row hrow
        have := (List.all_eq_true.mp hcons) row hrow
        exact of_decide_eq_true this

/-- C8 witness: the requirements instantiated on the aligned 3-by-2 grid
(where `isTableStructure` holds). -/
theorem isTableStructure_requirements_witness :
    2 ≤ (groupByRows alignedGrid).length :=
  (isTableStructure_requirements.1 alignedGrid (by decide)).1

/-- Helper for C5: a fold whose step either keeps the accumulator or
replaces it by a role at confidence 0.8 preserves the two-shape
invariant. -/
theorem foldl_role_shape (f : RoleResolution → SemEntry → RoleResolution)
    (hf : ∀ b e, f b e = b ∨ ∃ r, f b e = ⟨some r, ⟨4, 5⟩⟩) :
    ∀ (l : List SemEntry) (b : RoleResolution),
      (b = ⟨none, 0⟩ ∨ ∃ r, b = ⟨some r, ⟨4, 5⟩⟩) →
      (l.foldl f b = ⟨none, 0⟩ ∨ ∃ r, l.foldl f b = ⟨some r, ⟨4, 5⟩⟩) := by
  intro l
  induction l with
  | nil => intro b hb; exact hb
  | cons e es ih =>
    intro b hb
    rw [List.foldl_cons]
    refine ih (f b e) ?_
    rcases hf b e with h | ⟨r, h⟩
    · rw [h]; exact hb
    · rw [h]; exact Or.inr ⟨r, rfl⟩

/-- C5: `resolveNodeRole` iterates the semantic dictionary in its fixed
order (the `semanticEntries` list), skips an entry when an exclude
keyword occurs in the lowercased name, scores any matcher hit with the
flat confidence 0.8 (keeping the strictly best score, so ties favour the
first-registered entry), and falls to `{role: null, confidence: 0}` below
the 0.6 threshold — hence every result is either `⟨none, 0⟩` or
`⟨some role, 0.8⟩`. -/
theorem resolveNodeRole_binary (node : SceneNode) :
    resolveNodeRole node = ⟨none, 0⟩ ∨
    ∃ r, resolveNodeRole node = ⟨some r, ⟨4, 5⟩⟩ := by
  unfold resolveNodeRole
  dsimp only []
  split
  · exact Or.inl rfl
  · refine foldl_role_shape _ ?_ semanticEntries ⟨none, 0⟩ (Or.inl rfl)
    intro b e
    dsimp only []
    split
    · exact Or.inl rfl
    · split
      · split
        · exact Or.inr ⟨e.role, rfl⟩
        · exact Or.inl rfl
      · exact Or.inl rfl

/-- Helper: the operation-node search on an empty queue yields nothing at
any fuel. -/
theorem findOperationNodesGo_nil (fuel : Nat) : findOperationNodesGo [] fuel = [] := by
  cases fuel <;> rfl

/-- C6 counterexample: a visible operation-matching node of width 500
with only 2 children — by the claim it fails the `width > 400 AND more
than 3 children` wrapper condition and should be accepted, but the
search treats it as a wrapper and returns no accepted node. -/
theorem findOperationNodes_claim_counterexample :
    isExplicitActionColumnNode wideActionNode = true ∧
    wideActionNode.visible = true ∧
    Q.blt 400 wideActionNode.width = true ∧
    wideActionNode.children.length ≤ 3 ∧
    findOperationNodesGo [wideActionNode] 1000 = [] := by
  exact ⟨by decide, by decide, by decide, by decide, rfl⟩

/-- C6 (amended): a visible matching node is suspected to be a wrapper
exactly when its width exceeds 400 — the `>3 children` conjunct is itself
conditioned on the width check and never changes the decision. With
width ≤ 400 the node is accepted as the operation column; with width
over 400 the search descends into its children instead. -/
theorem findOperationNodes_wrapper_width_only (n : SceneNode) (fuel : Nat)
    (hv : n.visible = true) (hm : isExplicitActionColumnNode n = true) :
    (Q.blt 400 n.width = false → findOperationNodesGo [n] (fuel + 1) = [n]) ∧
    (Q.blt 400 n.width = true →
      findOperationNodesGo [n] (fuel + 1) =
        findOperationNodesGo (if isContainer n then n.children else []) fuel) := by
  constructor
  · intro hw
    simp only [findOperationNodesGo, hv, hm, hw, Bool.not_true, Bool.false_eq_true,
      if_false, Bool.and_false, Bool.false_or, Bool.and_true, Bool.or_false,
      Bool.not_false, if_true, findOperationNodesGo_nil]
  · intro hw
    simp only [findOperationNodesGo, hv, hm, hw, Bool.not_true, Bool.false_eq_true,
      if_false, Bool.and_true, Bool.true_or, Bool.not_true, Bool.and_false,
      List.nil_append]

/-- C6 witness: the amended rule applied to the concrete narrow (width
100) operation node, which the search accepts. -/
theorem findOperationNodes_wrapper_width_only_witness :
    findOperationNodesGo [narrowActionNode] (999 + 1) = [narrowActionNode] :=
  (findOperationNodes_wrapper_width_only narrowActionNode 999 (by decide) (by decide)).1
    (by decide)

/-- Helper for C2: membership in the filtered column list implies a
non-`actions` dataIndex. -/
theorem dataIndex_ne_of_mem_filter {c : TableColumn} {l : List TableColumn}
    (h : c ∈ l.filter (fun col => col.dataIndex ≠ some ("actions"))) :
    c.dataIndex ≠ some ("actions") := by
  have := (List.mem_filter.mp h).2
  exact of_decide_eq_true this

/-- C2: the model never carries a plain `dataIndex = "actions"` column at
the same time as a populated `actionColumn` — whenever `actionColumn` is
present, every entry of `body.table.columns` has a different dataIndex
(the pipeline strips all `actions` columns before attaching the
dedicated field). -/
theorem processTablePage_actions_exclusive (n : SceneNode)
    (h : (processTablePage n).body.table.actionColumn ≠ none) :
    ∀ c ∈ (processTablePage n).body.table.columns, c.dataIndex ≠ some ("actions") := by
  intro c hc
  simp only [processTablePage] at h hc
  rcases htab : findComponentByRoleCtx n TableRole.DataGrid with _ | ⟨ta, ctx⟩
  · rw [htab] at h
    simp at h
  · rw [htab] at hc
    simp only [] at hc
    exact dataIndex_ne_of_mem_filter hc

/-- C2 witness: on the page fixture the action column is populated and
the surviving plain column (`Name`) indeed has a different dataIndex. -/
theorem processTablePage_actions_exclusive_witness :
    nameColumn.dataIndex ≠ some ("actions") :=
  processTablePage_actions_exclusive pageFixture (by decide) nameColumn (by decide)

/-- Helper for C10: de-duplication only drops elements. -/
theorem mem_dedupeByKey {b : ActionButton} :
    ∀ {l : List ActionButton} {seen : List (Option String)},
      b ∈ dedupeByKey l seen → b ∈ l := by
  intro l
  induction l with
  | nil => intro seen h; cases h
  | cons a as ih =>
    intro seen h
    unfold dedupeByKey at h
    split at h
    · exact List.mem_cons_of_mem a (ih h)
    · rcases List.mem_cons.mp h with h | h
      · exact h ▸ List.mem_cons_self a as
      · exact List.mem_cons_of_mem a (ih h)

/-- Helper for C10: every button produced by `extractActionButton`
carries `danger` exactly for `delete` and the fixed confirm dialog
exactly for `delete`. -/
theorem extractActionButton_shape {node : SceneNode} {b : ActionButton}
    (h : extractActionButton node = some b) :
    b.danger = some (decide (b.type = "delete")) ∧
    b.confirm = (if b.type = "delete" then
      some { title := "确认删除", content := some ("确定要删除这条记录吗？") }
    else none) := by
  unfold extractActionButton at h
  dsimp only [] at h
  split at h
  · cases h
  · split at h
    · cases h
    · split at h
      · cases h
      · split at h
        · injection h with h'
          subst h'
          exact ⟨rfl, rfl⟩
        · cases h

/-- Helper for C10: every button of a successful `extractOperationGroup`
comes from `extractActionButton`. -/
theorem extractOperationGroup_buttons_from {nodes : List SceneNode}
    {res : TableColumn × List ActionButton}
    (h : extractOperationGroup nodes = some res) :
    ∀ b ∈ res.2, ∃ node, extractActionButton node = some b := by
  unfold extractOperationGroup at h
  dsimp only [] at h
  split at h
  · cases h
  · split at h
    · cases h
    · injection h with h'
      subst h'
      intro b hb
      have hb' := mem_dedupeByKey hb
      rw [List.mem_flatMap] at hb'
      obtain ⟨node, _, hbnode⟩ := hb'
      by_cases hc : isContainer node = true
      · rw [if_pos hc] at hbnode
        rw [List.mem_filterMap] at hbnode
        obtain ⟨a, _, ha⟩ := hbnode
        exact ⟨a, ha⟩
      · rw [if_neg hc] at hbnode
        cases hopt : extractActionButton node with
        | none => rw [hopt] at hbnode; cases hbnode
        | some b' =>
          rw [hopt] at hbnode
          simp only [Option.toList, List.mem_singleton] at hbnode
          exact ⟨node, hbnode ▸ hopt⟩

/-- C10: every row-action button emitted into the model's `actionColumn`
has `danger = true` if and only if its type is `delete`, and carries the
fixed delete-confirmation dialog if and only if its type is `delete`;
buttons of the other types carry `danger = false` and no confirm. -/
theorem actionColumn_danger_confirm_iff_delete (n : SceneNode)
    (ac : ActionColumnModel) (b : ActionButton)
    (hac : (processTablePage n).body.table.actionColumn = some ac)
    (hb : b ∈ ac.buttons) :
    b.danger = some (decide (b.type = "delete")) ∧
    b.confirm = (if b.type = "delete" then
      some { title := "确认删除", content := some ("确定要删除这条记录吗？") }
    else none) := by
  simp only [processTablePage] at hac
  rcases htab : findComponentByRoleCtx n TableRole.DataGrid with _ | ⟨ta, ctx⟩
  · rw [htab] at hac
    simp at hac
  · rw [htab] at hac
    simp only [] at hac
    rcases hop : extractOperationGroup
        (sortNodesByPosition (findChildren ta (fun n => n.visible))) with _ | res
    · rw [hop] at hac
      simp at hac
    · rw [hop] at hac
      dsimp only [] at hac
      by_cases hlen : res.2.length > 0
      · rw [if_pos hlen] at hac
        dsimp only [] at hac
        injection hac with hac'
        subst hac'
        obtain ⟨node, hnode⟩ := extractOperationGroup_buttons_from hop b hb
        exact extractActionButton_shape hnode
      · rw [if_neg hlen] at hac
        cases hac

/-- C10 witness: the single `delete` button of the delete fixture carries
`danger = true` and the fixed confirm dialog. -/
theorem actionColumn_danger_confirm_iff_delete_witness :
    deleteButton.danger = some (decide (deleteButton.type = "delete")) ∧
    deleteButton.confirm = (if deleteButton.type = "delete" then
      some { title := "确认删除", content := some ("确定要删除这条记录吗？") }
    else none) :=
  actionColumn_danger_confirm_iff_delete deleteFixture
    { column := operationColumn, buttons := [deleteButton] } deleteButton
    (by decide) (by decide)
